import Mathlib

/-!
Shallow embedding of the JobHunt repository's job-processing core
(`job_models.py`, `job_processor.py`, `orchestrator.py`, and the MongoDB-style
document store they drive), together with theorems settling the frozen claims.

Modelling conventions:
* Python strings are Lean `String`s; `str.lower`/`strip`/`in` are modelled on
  ASCII data (the repository only manipulates ASCII job text).
* Python `None` on an `Optional[str]` field is `Option.none`; an expression
  that would raise (e.g. `None.lower()`) is modelled by an `Option`-valued
  function returning `none`, and callers propagate the error monadically,
  mirroring exception propagation.
* `fuzzywuzzy` similarity is modelled after its python-Levenshtein backend:
  `fuzz.ratio` is `round(100 * (1 - indel_distance/(len a + len b)))`, i.e.
  `round(200 * lcs / (len a + len b))` with Python's banker's rounding, with
  the library's equal-strings and empty-string shortcuts applied first.
* Python float thresholds (0.8, 0.7) are modelled as the rationals they
  denote; all comparisons performed by the code are exact at these values.
-/

namespace JobHunt

/-! ### Python string primitives -/

/-- Word character in Python's `re` (`\w` = letters, digits, underscore). -/
def isWordChar (c : Char) : Bool := c.isAlphanum || c = '_'

/-- Python `str.lower()` (ASCII model). -/
def pyLower (s : String) : String := ⟨s.data.map Char.toLower⟩

/-- Python whitespace (`\s`, `str.split()`, `str.strip()` default set). -/
def isPySpace (c : Char) : Bool :=
  c = ' ' || c = '\t' || c = '\n' || c = '\r' || c = '\x0b' || c = '\x0c'

/-- Python `str.strip()` on character data. -/
def pyStripData (s : List Char) : List Char :=
  ((s.dropWhile isPySpace).reverse.dropWhile isPySpace).reverse

/-- Python `str.strip()`. -/
def pyStrip (s : String) : String := ⟨pyStripData s.data⟩

/-- `needle` is a leading block of `hay`. -/
def isPrefixList : List Char → List Char → Bool
  | [], _ => true
  | _ :: _, [] => false
  | a :: as, b :: bs => a = b && isPrefixList as bs

/-- Python `needle in hay` (contiguous substring test). -/
def pyInData (needle : List Char) : List Char → Bool
  | [] => isPrefixList needle []
  | c :: cs => isPrefixList needle (c :: cs) || pyInData needle cs

/-- Python `needle in hay` for strings. -/
def pyIn (needle hay : String) : Bool := pyInData needle.data hay.data

/-- Python `s.count(c)` for a single-character needle. -/
def pyCountChar (c : Char) (s : String) : Nat := s.data.countP (fun x => x = c)

/-- One step of Python `str.split()`: split on whitespace runs, drop empties. -/
def splitWsAux (acc : List Char) : List Char → List (List Char)
  | [] => if acc.isEmpty then [] else [acc.reverse]
  | c :: cs =>
    if isPySpace c then
      (if acc.isEmpty then splitWsAux [] cs else acc.reverse :: splitWsAux [] cs)
    else splitWsAux (c :: acc) cs

/-- Python `str.split()` (no argument). -/
def pySplitWs (s : List Char) : List (List Char) := splitWsAux [] s

/-- Python `<` on strings: lexicographic by code point, shorter prefix first. -/
def lexLe : List Char → List Char → Bool
  | [], _ => true
  | _ :: _, [] => false
  | a :: as, b :: bs => if a = b then lexLe as bs else decide (a < b)

/-- Insert into a `lexLe`-sorted list of tokens. -/
def insertToken (x : List Char) : List (List Char) → List (List Char)
  | [] => [x]
  | y :: ys => if lexLe x y then x :: y :: ys else y :: insertToken x ys

/-- Python `sorted` on string tokens: `lexLe` is a total order on character
lists, so the sorted permutation is unique and insertion sort realises it. -/
def sortTokens : List (List Char) → List (List Char)
  | [] => []
  | x :: xs => insertToken x (sortTokens xs)

/-! ### fuzzywuzzy similarity (python-Levenshtein backend) -/

/-- Longest-common-subsequence length, with explicit structural fuel
(`lcsLen` below always supplies enough). -/
def lcsF : Nat → List Char → List Char → Nat
  | 0, _, _ => 0
  | _ + 1, [], _ => 0
  | _ + 1, _ :: _, [] => 0
  | f + 1, a :: as, b :: bs =>
    if a = b then lcsF f as bs + 1
    else max (lcsF f as (b :: bs)) (lcsF f (a :: as) bs)

/-- Longest-common-subsequence length of two character lists. -/
def lcsLen (a b : List Char) : Nat := lcsF (a.length + b.length) a b

/-- Round `n / d` to the nearest integer, ties to even (Python `round`),
assuming `0 < d`. -/
def roundHalfEven (n d : Nat) : Nat :=
  if 2 * (n % d) < d then n / d
  else if d < 2 * (n % d) then n / d + 1
  else if n / d % 2 = 0 then n / d else n / d + 1

/-- `fuzz.ratio` as a 0..100 integer: equal strings give 100, an empty side
gives 0, otherwise the rounded indel similarity `200*lcs/(|a|+|b|)`. -/
def fuzzRatio100 (a b : List Char) : Nat :=
  if a = b then 100
  else if a.length = 0 || b.length = 0 then 0
  else roundHalfEven (200 * lcsLen a b) (a.length + b.length)

/-- `fuzzywuzzy.utils.full_process` with `force_ascii=True`: drop non-ASCII,
replace non-word characters by spaces, lowercase, strip. -/
def fullProcess (s : String) : List Char :=
  pyStripData ((s.data.filter (fun c => c.val < 128)).map
    (fun c => Char.toLower (if isWordChar c then c else ' ')))

/-- `fuzz._process_and_sort`: full-process, split into tokens, sort them,
join with single spaces. -/
def processAndSort (s : String) : List Char :=
  pyStripData (List.intercalate [' '] (sortTokens (pySplitWs (fullProcess s))))

/-- `fuzz.token_sort_ratio` as a 0..100 integer. -/
def tokenSortRatio100 (a b : String) : Nat :=
  fuzzRatio100 (processAndSort a) (processAndSort b)

/-! ### The `Job` dataclass and `is_duplicate_job` (`job_models.py`) -/

/-- A calendar timestamp as Python's `datetime` carries it; compared
field-lexicographically like `datetime` comparison. -/
structure PyDatetime where
  year : Nat
  month : Nat
  day : Nat
  hour : Nat := 0
  minute : Nat := 0
  second : Nat := 0
deriving DecidableEq

/-- Python `datetime` `<=` (field-lexicographic). -/
def dtLe (a b : PyDatetime) : Bool :=
  if a.year = b.year then
    if a.month = b.month then
      if a.day = b.day then
        if a.hour = b.hour then
          if a.minute = b.minute then decide (a.second ≤ b.second)
          else decide (a.minute < b.minute)
        else decide (a.hour < b.hour)
      else decide (a.day < b.day)
    else decide (a.month < b.month)
  else decide (a.year < b.year)

/-- The `Job` dataclass of `job_models.py`; `location`, `description`,
`seniority` and `employment_type` are `Optional[str]`. -/
structure Job where
  source : String
  source_job_id : String
  title : String
  company : String
  location : Option String
  description : Option String
  apply_url : String
  skills : List String
  seniority : Option String
  remote : Bool
  created_at : PyDatetime
  employment_type : Option String := none
deriving DecidableEq

/-- The comparison `similarity_int / 100 > t`, carried out exactly on the
rational's numerator and denominator so that it evaluates by kernel
reduction; `qltNatDiv100_iff` below shows it equals `t < (n : ℚ) / 100`. -/
def qltNatDiv100 (t : ℚ) (n : Nat) : Bool :=
  decide (t.num * 100 < (n : Int) * (t.den : Int))

/-- The fuzzy half of `is_duplicate_job`: token-sort similarity of lowercased
titles against `threshold`, then plain ratios of companies and locations
against 0.7.  Accessing a `None` location raises, modelled by `none`. -/
def dupFuzzyCheck (job1 job2 : Job) (threshold : ℚ) : Option Bool :=
  if qltNatDiv100 threshold (tokenSortRatio100 (pyLower job1.title) (pyLower job2.title)) then
    match job1.location, job2.location with
    | some l1, some l2 =>
      if qltNatDiv100 (mkRat 7 10)
           (fuzzRatio100 (pyLower job1.company).data (pyLower job2.company).data) &&
         qltNatDiv100 (mkRat 7 10) (fuzzRatio100 (pyLower l1).data (pyLower l2).data) then
        some true
      else some false
    | _, _ => none
  else some false

/-- `is_duplicate_job` of `job_models.py`.  The exact-match branch
short-circuits: the location fields are only read once company and title
compare equal, so a `None` location raises (`none`) exactly when the Python
code would. -/
def is_duplicate_job (job1 job2 : Job) (threshold : ℚ := mkRat 4 5) : Option Bool :=
  if pyLower job1.company = pyLower job2.company ∧ pyLower job1.title = pyLower job2.title then
    match job1.location, job2.location with
    | some l1, some l2 =>
      if pyLower l1 = pyLower l2 then some true
      else dupFuzzyCheck job1 job2 threshold
    | _, _ => none
  else dupFuzzyCheck job1 job2 threshold

/-! ### `JobProcessor.deduplicate_jobs` (`job_processor.py`) -/

/-- The inner loop of `deduplicate_jobs`: scan the kept jobs in order,
stopping at the first fuzzy duplicate; a raised comparison propagates. -/
def anyDuplicate (job : Job) : List Job → Option Bool
  | [] => some false
  | e :: rest =>
    match is_duplicate_job job e with
    | none => none
    | some true => some true
    | some false => anyDuplicate job rest

/-- The outer loop of `deduplicate_jobs` with its `unique_jobs` accumulator. -/
def dedupLoop (unique : List Job) : List Job → Option (List Job)
  | [] => some unique
  | j :: rest =>
    match anyDuplicate j unique with
    | none => none
    | some true => dedupLoop unique rest
    | some false => dedupLoop (unique ++ [j]) rest

/-- `JobProcessor.deduplicate_jobs`: keep the first job unconditionally, then
keep each later job unless it fuzzy-matches an already-kept one. -/
def deduplicate_jobs : List Job → Option (List Job)
  | [] => some []
  | j :: rest => dedupLoop [j] rest

/-! ### Regex heuristics for experience years

The repository applies `re.search` with a fixed family of patterns such as
`(\d+)[\+-]?\s*years?` and takes `int(match.group(1))`.  Each of those
patterns is a plain sequence of literals, optional single characters,
character-class stars and one-or-more digit groups, and in every pattern the
character class of a star/optional atom is disjoint from the possible first
characters of the following atom, so leftmost greedy matching without
backtracking is exact. -/

/-- An atom of the repository's experience patterns. -/
inductive PatAtom where
  | lit (s : List Char)
  | opt (cs : List Char)
  | star (cs : List Char)
  | num

/-- Maximal leading digit run. -/
def takeDigits : List Char → List Char × List Char
  | [] => ([], [])
  | c :: cs =>
    if c.isDigit then
      let (d, r) := takeDigits cs
      (c :: d, r)
    else ([], c :: cs)

/-- Python `int` on a digit string. -/
def digitsToNat (ds : List Char) : Nat :=
  ds.foldl (fun n c => 10 * n + (c.toNat - 48)) 0

/-- Match a pattern at the start of `s`, returning the first captured number
(`match.group(1)`) on success. -/
def matchAtoms : List PatAtom → List Char → Option Nat → Option (Option Nat)
  | [], _, cap => some cap
  | PatAtom.lit l :: rest, s, cap =>
    if isPrefixList l s then matchAtoms rest (s.drop l.length) cap else none
  | PatAtom.opt cs :: rest, s, cap =>
    match s with
    | c :: s' => if cs.contains c then matchAtoms rest s' cap else matchAtoms rest (c :: s') cap
    | [] => matchAtoms rest [] cap
  | PatAtom.star cs :: rest, s, cap =>
    matchAtoms rest (s.dropWhile (fun c => cs.contains c)) cap
  | PatAtom.num :: rest, s, cap =>
    let (ds, r) := takeDigits s
    if ds.isEmpty then none
    else matchAtoms rest r (match cap with | none => some (digitsToNat ds) | some n => some n)

/-- `re.search`: try every start position left to right; on the first success
return the first captured number. -/
def searchNum (pat : List PatAtom) : List Char → Option Nat
  | [] =>
    match matchAtoms pat [] none with
    | some (some n) => some n
    | _ => none
  | c :: cs =>
    match matchAtoms pat (c :: cs) none with
    | some (some n) => some n
    | _ => searchNum pat cs

/-- The source's pattern loops: first pattern with a match anywhere decides. -/
def firstPatternNum : List (List PatAtom) → List Char → Option Nat
  | [], _ => none
  | p :: ps, s =>
    match searchNum p s with
    | some n => some n
    | none => firstPatternNum ps s

/-- Python `\s` as a character list. -/
def wsChars : List Char := [' ', '\t', '\n', '\r', '\x0b', '\x0c']

/-- `[:\s]` as a character list. -/
def colonWs : List Char := ':' :: wsChars

/-- The five `experience_patterns` of `_passes_seniority_filter` and
`_passes_job_title_filter`, in source order. -/
def yearsPatterns : List (List PatAtom) :=
  [ [PatAtom.num, PatAtom.opt ['+', '-'], PatAtom.star wsChars, PatAtom.lit "year".data,
     PatAtom.opt ['s']],
    [PatAtom.num, PatAtom.star wsChars, PatAtom.lit "to".data, PatAtom.star wsChars, PatAtom.num,
     PatAtom.star wsChars, PatAtom.lit "year".data, PatAtom.opt ['s']],
    [PatAtom.lit "less".data, PatAtom.star wsChars, PatAtom.lit "than".data, PatAtom.star wsChars,
     PatAtom.num, PatAtom.star wsChars, PatAtom.lit "year".data, PatAtom.opt ['s']],
    [PatAtom.lit "upto".data, PatAtom.star wsChars, PatAtom.num, PatAtom.star wsChars,
     PatAtom.lit "year".data, PatAtom.opt ['s']],
    [PatAtom.lit "max".data, PatAtom.star wsChars, PatAtom.num, PatAtom.star wsChars,
     PatAtom.lit "year".data, PatAtom.opt ['s']] ]

/-- The ten `entry_level_patterns` of `_passes_experience_filter`. -/
def entryLevelPatterns : List (List PatAtom) :=
  [ [PatAtom.num, PatAtom.opt ['+', '-'], PatAtom.star wsChars, PatAtom.lit "year".data,
     PatAtom.opt ['s'], PatAtom.star wsChars, PatAtom.lit "experience".data],
    [PatAtom.num, PatAtom.star wsChars, PatAtom.lit "to".data, PatAtom.star wsChars, PatAtom.num,
     PatAtom.star wsChars, PatAtom.lit "year".data, PatAtom.opt ['s'], PatAtom.star wsChars,
     PatAtom.lit "experience".data],
    [PatAtom.lit "less".data, PatAtom.star wsChars, PatAtom.lit "than".data, PatAtom.star wsChars,
     PatAtom.num, PatAtom.star wsChars, PatAtom.lit "year".data, PatAtom.opt ['s'],
     PatAtom.star wsChars, PatAtom.lit "experience".data],
    [PatAtom.lit "upto".data, PatAtom.star wsChars, PatAtom.num, PatAtom.star wsChars,
     PatAtom.lit "year".data, PatAtom.opt ['s'], PatAtom.star wsChars,
     PatAtom.lit "experience".data],
    [PatAtom.lit "max".data, PatAtom.star wsChars, PatAtom.num, PatAtom.star wsChars,
     PatAtom.lit "year".data, PatAtom.opt ['s'], PatAtom.star wsChars,
     PatAtom.lit "experience".data],
    [PatAtom.num, PatAtom.opt ['+', '-'], PatAtom.star wsChars, PatAtom.lit "year".data,
     PatAtom.opt ['s'], PatAtom.star wsChars, PatAtom.lit "of".data, PatAtom.star wsChars,
     PatAtom.lit "experience".data],
    [PatAtom.num, PatAtom.star wsChars, PatAtom.lit "to".data, PatAtom.star wsChars, PatAtom.num,
     PatAtom.star wsChars, PatAtom.lit "year".data, PatAtom.opt ['s'], PatAtom.star wsChars,
     PatAtom.lit "of".data, PatAtom.star wsChars, PatAtom.lit "experience".data],
    [PatAtom.lit "experience".data, PatAtom.star wsChars, PatAtom.lit "level".data,
     PatAtom.star colonWs, PatAtom.num, PatAtom.opt ['+', '-'], PatAtom.star wsChars,
     PatAtom.lit "year".data, PatAtom.opt ['s']],
    [PatAtom.lit "required".data, PatAtom.star wsChars, PatAtom.lit "experience".data,
     PatAtom.star colonWs, PatAtom.num, PatAtom.opt ['+', '-'], PatAtom.star wsChars,
     PatAtom.lit "year".data, PatAtom.opt ['s']],
    [PatAtom.lit "minimum".data, PatAtom.star wsChars, PatAtom.lit "experience".data,
     PatAtom.star colonWs, PatAtom.num, PatAtom.opt ['+', '-'], PatAtom.star wsChars,
     PatAtom.lit "year".data, PatAtom.opt ['s']] ]

/-- The five `senior_patterns` of `_passes_experience_filter`. -/
def seniorPatterns : List (List PatAtom) :=
  [ [PatAtom.num, PatAtom.opt ['+', '-'], PatAtom.star wsChars, PatAtom.lit "year".data,
     PatAtom.opt ['s'], PatAtom.star wsChars, PatAtom.lit "experience".data],
    [PatAtom.num, PatAtom.star wsChars, PatAtom.lit "to".data, PatAtom.star wsChars, PatAtom.num,
     PatAtom.star wsChars, PatAtom.lit "year".data, PatAtom.opt ['s'], PatAtom.star wsChars,
     PatAtom.lit "experience".data],
    [PatAtom.lit "minimum".data, PatAtom.star wsChars, PatAtom.num, PatAtom.opt ['+', '-'],
     PatAtom.star wsChars, PatAtom.lit "year".data, PatAtom.opt ['s'], PatAtom.star wsChars,
     PatAtom.lit "experience".data],
    [PatAtom.lit "at".data, PatAtom.star wsChars, PatAtom.lit "least".data, PatAtom.star wsChars,
     PatAtom.num, PatAtom.opt ['+', '-'], PatAtom.star wsChars, PatAtom.lit "year".data,
     PatAtom.opt ['s'], PatAtom.star wsChars, PatAtom.lit "experience".data],
    [PatAtom.num, PatAtom.opt ['+', '-'], PatAtom.star wsChars, PatAtom.lit "year".data,
     PatAtom.opt ['s'], PatAtom.star wsChars, PatAtom.lit "of".data, PatAtom.star wsChars,
     PatAtom.lit "experience".data] ]

/-- The `senior_patterns` loop: each matching pattern rejects only when its
captured years exceed 2, otherwise the loop continues. -/
def seniorReject : List (List PatAtom) → List Char → Bool
  | [], _ => false
  | p :: ps, s =>
    match searchNum p s with
    | some n => if n > 2 then true else seniorReject ps s
    | none => seniorReject ps s

/-! ### The five filter stages (`job_processor.py`) -/

/-- The `job_filters` section of the configuration (`config.yaml` lists). -/
structure Filters where
  allowed_locations : List String := []
  required_skills : List String := []
  excluded_seniority : List String := []
  preferred_seniority : List String := []
deriving DecidableEq

/-- `_passes_location_filter`: with restrictions configured, `None.lower()`
raises, hence the `Option`. -/
def passes_location_filter (f : Filters) (location : Option String) : Option Bool :=
  if f.allowed_locations.isEmpty then some true
  else
    match location with
    | none => none
    | some loc => some (f.allowed_locations.any (fun a => pyIn (pyLower a) (pyLower loc)))

/-- `_passes_skills_filter`. -/
def passes_skills_filter (f : Filters) (skills : List String) : Bool :=
  if f.required_skills.isEmpty then true
  else if skills.isEmpty then false
  else f.required_skills.any (fun r => (skills.map pyLower).contains (pyLower r))

/-- `_passes_seniority_filter`: `if not seniority` admits both `None` and the
empty string; then excluded keywords, preferred keywords, and the years
patterns, in that order. -/
def passes_seniority_filter (f : Filters) (seniority : Option String) : Bool :=
  match seniority with
  | none => true
  | some s =>
    if s = "" then true
    else
      let sl := pyLower s
      if f.excluded_seniority.any (fun e => pyIn (pyLower e) sl) then false
      else if f.preferred_seniority.any (fun p => pyIn (pyLower p) sl) then true
      else
        match firstPatternNum yearsPatterns sl.data with
        | some n => decide (n ≤ 2)
        | none => false

/-- The `entry_level_indicators` list of `_passes_job_title_filter`. -/
def entryLevelIndicators : List String :=
  ["fresher", "junior", "entry level", "entry-level", "associate", "assistant",
   "trainee", "intern", "internship", "new grad", "new graduate", "recent graduate",
   "student", "apprentice", "entry", "beginner", "junior developer", "junior engineer",
   "junior analyst", "junior scientist", "junior consultant"]

/-- `_passes_job_title_filter`: entry-level keywords first, then the years
patterns, and unclear titles are allowed through. -/
def passes_job_title_filter (title : String) : Bool :=
  if title = "" then false
  else
    let tl := pyLower title
    if entryLevelIndicators.any (fun i => pyIn i tl) then true
    else
      match firstPatternNum yearsPatterns tl.data with
      | some n => decide (n ≤ 2)
      | none => true

/-- The `entry_level_keywords` list of `_passes_experience_filter`. -/
def entryLevelKeywords : List String :=
  ["fresher", "junior", "entry level", "entry-level", "associate", "assistant",
   "trainee", "intern", "internship", "new grad", "new graduate", "recent graduate",
   "student", "apprentice", "entry", "beginner", "graduate", "fresh graduate",
   "no experience", "0 experience", "zero experience", "first job", "first role",
   "entry position", "junior position", "associate position", "trainee position"]

/-- The `senior_keywords` list of `_passes_experience_filter`. -/
def seniorKeywords : List String :=
  ["senior", "lead", "principal", "architect", "manager", "head", "chief",
   "staff", "director", "vp", "c-level", "executive", "team lead", "tech lead",
   "engineering manager", "senior developer", "senior engineer", "senior analyst",
   "senior scientist", "senior consultant", "experienced", "expert", "specialist"]

/-- The text `_passes_experience_filter` analyses: Python truthiness skips
both `None` and empty strings. -/
def experienceText (description seniority : Option String) : String :=
  (match description with
   | some d => if d = "" then "" else pyLower d
   | none => "") ++
  (match seniority with
   | some s => if s = "" then "" else " " ++ pyLower s
   | none => "")

/-- `_passes_experience_filter`: entry patterns, then senior patterns, then
entry keywords, then senior keywords, defaulting to acceptance. -/
def passes_experience_filter (description seniority : Option String) : Bool :=
  let text := experienceText description seniority
  if text = "" then true
  else
    match firstPatternNum entryLevelPatterns text.data with
    | some n => decide (n ≤ 2)
    | none =>
      if seniorReject seniorPatterns text.data then false
      else if entryLevelKeywords.any (fun k => pyIn k text) then true
      else if seniorKeywords.any (fun k => pyIn k text) then false
      else true

/-- `_passes_filters`: the five stages in source order with short-circuit
rejection; a raising stage propagates. -/
def passes_filters (f : Filters) (j : Job) : Option Bool :=
  match passes_location_filter f j.location with
  | none => none
  | some lok =>
    if !lok then some false
    else if !passes_skills_filter f j.skills then some false
    else if !passes_seniority_filter f j.seniority then some false
    else if !passes_job_title_filter j.title then some false
    else if !passes_experience_filter j.description j.seniority then some false
    else some true

/-- `JobProcessor.filter_jobs`: keep, in order, the jobs passing all stages. -/
def filter_jobs (f : Filters) : List Job → Option (List Job)
  | [] => some []
  | j :: rest =>
    match passes_filters f j with
    | none => none
    | some p =>
      match filter_jobs f rest with
      | none => none
      | some r => some (if p then j :: r else r)

/-! ### `JobNormalizer` (`job_models.py`)

Raw aggregator payloads are string-keyed dictionaries whose values are
strings or integers (`str(value)` is applied before use; float timestamps do
not occur in the aggregator payloads). -/

/-- A raw payload value. -/
inductive RawVal where
  | str (s : String)
  | int (n : Int)
deriving DecidableEq

/-- Python `str(value)`. -/
def pyStr : RawVal → String
  | RawVal.str s => s
  | RawVal.int n => toString n

/-- Python truthiness of a payload value. -/
def pyTruthy : RawVal → Bool
  | RawVal.str s => s ≠ ""
  | RawVal.int n => n ≠ 0

/-- A raw job dictionary (keys unique, insertion-ordered). -/
def RawJob := List (String × RawVal)
deriving instance DecidableEq for RawJob

/-- Python `raw_job.get(field)`. -/
def rawGet (rj : RawJob) (k : String) : Option RawVal :=
  (List.find? (fun p => p.1 == k) rj).map (fun p => p.2)

/-- The shared shape of `_extract_title`/`_extract_company`/… : first field
in the list whose value is present and truthy. -/
def extractFirstTruthy (rj : RawJob) : List String → Option RawVal
  | [] => none
  | f :: fs =>
    match rawGet rj f with
    | some v => if pyTruthy v then some v else extractFirstTruthy rj fs
    | none => extractFirstTruthy rj fs

/-- Field extraction returning `""` when nothing is found
(`_extract_title`, `_extract_company`, `_extract_location`,
`_extract_apply_url`). -/
def extractStr (rj : RawJob) (fields : List String) : String :=
  match extractFirstTruthy rj fields with
  | some v => pyStrip (pyStr v)
  | none => ""

/-- Field extraction returning `None` when nothing is found
(`_extract_description`, `_extract_employment_type`). -/
def extractOptStr (rj : RawJob) (fields : List String) : Option String :=
  (extractFirstTruthy rj fields).map (fun v => pyStrip (pyStr v))

/-- `str(raw_job.get('id', raw_job.get('job_id', '')))` — defaults, no
truthiness, no strip. -/
def sourceJobId (rj : RawJob) : String :=
  pyStr ((rawGet rj "id").getD ((rawGet rj "job_id").getD (RawVal.str "")))

/-- `SKILL_KEYWORDS` in source (insertion) order. -/
def skillKeywords : List (String × List String) :=
  [("python", ["python", "django", "flask", "fastapi", "pandas", "numpy"]),
   ("machine_learning", ["machine learning", "ml", "ai", "artificial intelligence", "deep learning"]),
   ("data_science", ["data science", "data scientist", "analytics", "statistics"]),
   ("nlp", ["nlp", "natural language processing", "text mining", "computational linguistics"]),
   ("web_development", ["web development", "frontend", "backend", "full stack", "react", "angular", "vue"]),
   ("data_engineering", ["data engineering", "etl", "data pipeline", "big data", "hadoop", "spark"]),
   ("software_engineering", ["software engineering", "software development", "programming", "coding"]),
   ("cloud", ["aws", "azure", "gcp", "cloud computing", "docker", "kubernetes"]),
   ("database", ["sql", "mysql", "postgresql", "mongodb", "redis", "database"]),
   ("devops", ["devops", "ci/cd", "jenkins", "git", "terraform", "ansible"])]

/-- `SENIORITY_INDICATORS` in source order. -/
def seniorityIndicators : List (String × List String) :=
  [("fresher", ["fresher", "entry level", "junior", "0-1 years", "0-2 years"]),
   ("junior", ["junior", "1-3 years", "2-4 years", "associate"]),
   ("mid", ["mid level", "3-5 years", "4-6 years", "intermediate"]),
   ("senior", ["senior", "5+ years", "6+ years", "lead", "principal"]),
   ("expert", ["expert", "8+ years", "10+ years", "architect", "staff"])]

/-- `REMOTE_INDICATORS`. -/
def remoteIndicators : List String :=
  ["remote", "work from home", "wfh", "virtual", "telecommute",
   "distributed", "anywhere", "flexible location"]

/-- Whether the list after a keyword occurrence starts at a `\b` boundary. -/
def headNonWord : List Char → Bool
  | [] => true
  | c :: _ => !isWordChar c

/-- Keyword occurrence at the head of `s` with a word boundary after it. -/
def kwHitAt (kw s : List Char) : Bool :=
  isPrefixList kw s && headNonWord (s.drop kw.length)

/-- Scan for a `\b`-delimited keyword occurrence; `prevIsWord` records
whether the previous character was a word character.  Every skill keyword
begins and ends with a word character, so `\b(kw1|kw2|…)\b` matches exactly
when some keyword occurs delimited this way. -/
def kwSearchFrom (kw : List Char) (prevIsWord : Bool) : List Char → Bool
  | [] => false
  | c :: cs => (!prevIsWord && kwHitAt kw (c :: cs)) || kwSearchFrom kw (isWordChar c) cs

/-- `_build_skill_patterns` + `pattern.search`: some keyword of the category
occurs word-delimited in the text. -/
def skillPatternHits (kws : List String) (text : String) : Bool :=
  kws.any (fun kw => kwSearchFrom kw.data false text.data)

/-- `_extract_skills` (the Python `set` insertion order is modelled by the
category order; only membership is ever consumed). -/
def extract_skills (title : String) (description : Option String) : List String :=
  let text := pyLower (title ++ " " ++ description.getD "")
  (skillKeywords.filter (fun kv => skillPatternHits kv.2 text)).map (fun kv => kv.1)

/-- `_determine_seniority`: first level one of whose indicators occurs. -/
def determine_seniority (title : String) (description : Option String) : Option String :=
  let text := pyLower (title ++ " " ++ description.getD "")
  (seniorityIndicators.find? (fun li => li.2.any (fun i => pyIn (pyLower i) text))).map
    (fun li => li.1)

/-- `_is_remote`. -/
def is_remote (title : String) (description : Option String) (location : String) : Bool :=
  let text := pyLower (title ++ " " ++ description.getD "" ++ " " ++ location)
  remoteIndicators.any (fun i => pyIn (pyLower i) text)

/-! #### `_extract_created_at`: `strptime` for the three supported formats -/

def isLeapYear (y : Nat) : Bool := (y % 4 = 0 && y % 100 ≠ 0) || y % 400 = 0

def daysInMonth (y m : Nat) : Nat :=
  if m = 2 then (if isLeapYear y then 29 else 28)
  else if m = 4 || m = 6 || m = 9 || m = 11 then 30
  else 31

/-- `strptime`'s one-or-two-digit fields: the two-digit alternatives are
tried first, then a single digit. -/
def parse2or1 (valid2 valid1 : Nat → Bool) : List Char → Option (Nat × List Char)
  | [] => none
  | [a] =>
    if a.isDigit && valid1 (a.toNat - 48) then some (a.toNat - 48, []) else none
  | a :: b :: rest =>
    if a.isDigit then
      if b.isDigit && valid2 ((a.toNat - 48) * 10 + (b.toNat - 48)) then
        some ((a.toNat - 48) * 10 + (b.toNat - 48), rest)
      else if valid1 (a.toNat - 48) then some (a.toNat - 48, b :: rest)
      else none
    else none

/-- `%Y`: exactly four digits. -/
def parseYear4 : List Char → Option (Nat × List Char)
  | a :: b :: c :: d :: rest =>
    if a.isDigit && b.isDigit && c.isDigit && d.isDigit then
      some (digitsToNat [a, b, c, d], rest)
    else none
  | _ => none

def parseMonth : List Char → Option (Nat × List Char) :=
  parse2or1 (fun v => 1 ≤ v && v ≤ 12) (fun v => 1 ≤ v)

def parseDay : List Char → Option (Nat × List Char) :=
  parse2or1 (fun v => 1 ≤ v && v ≤ 31) (fun v => 1 ≤ v)

def parseHour : List Char → Option (Nat × List Char) :=
  parse2or1 (fun v => v ≤ 23) (fun _ => true)

def parseMinSec : List Char → Option (Nat × List Char) :=
  parse2or1 (fun v => v ≤ 59) (fun _ => true)

def expectChar (c : Char) : List Char → Option (List Char)
  | [] => none
  | x :: xs => if x = c then some xs else none

/-- `%Y-%m-%d` prefix common to the three formats. -/
def parseYmd (s : List Char) : Option (Nat × Nat × Nat × List Char) := do
  let (y, s) ← parseYear4 s
  let s ← expectChar '-' s
  let (m, s) ← parseMonth s
  let s ← expectChar '-' s
  let (d, s) ← parseDay s
  pure (y, m, d, s)

/-- The `datetime` constructor's validation (year within range, day within
the month). -/
def mkDatetime (y m d hh mm ss : Nat) : Option PyDatetime :=
  if 1 ≤ y && d ≤ daysInMonth y m then some ⟨y, m, d, hh, mm, ss⟩ else none

/-- `strptime(value, '%Y-%m-%d')`. -/
def strptimeDate (s : List Char) : Option PyDatetime := do
  let (y, m, d, rest) ← parseYmd s
  match rest with
  | [] => mkDatetime y m d 0 0 0
  | _ => none

/-- `strptime` with a `%H:%M:%S` tail after the separator `sep`. -/
def strptimeDateTimeSep (sep : Char) (s : List Char) : Option PyDatetime := do
  let (y, m, d, rest) ← parseYmd s
  let rest ← expectChar sep rest
  let (hh, rest) ← parseHour rest
  let rest ← expectChar ':' rest
  let (mm, rest) ← parseMinSec rest
  let rest ← expectChar ':' rest
  let (ss, rest) ← parseMinSec rest
  match rest with
  | [] => mkDatetime y m d hh mm ss
  | _ => none

/-- The format loop: `'%Y-%m-%d'`, `'%Y-%m-%dT%H:%M:%S'`,
`'%Y-%m-%d %H:%M:%S'`, first success wins. -/
def pyStrptimeAny (s : String) : Option PyDatetime :=
  match strptimeDate s.data with
  | some dt => some dt
  | none =>
    match strptimeDateTimeSep 'T' s.data with
    | some dt => some dt
    | none => strptimeDateTimeSep ' ' s.data

/-- Civil date from days since 1970-01-01 (proleptic Gregorian). -/
def civilFromDays (z0 : Nat) : Nat × Nat × Nat :=
  let z := z0 + 719468
  let era := z / 146097
  let doe := z % 146097
  let yoe := (doe - doe / 1460 + doe / 36524 - doe / 146096) / 365
  let y := yoe + era * 400
  let doy := doe - (365 * yoe + yoe / 4 - yoe / 100)
  let mp := (5 * doy + 2) / 153
  let d := doy - (153 * mp + 2) / 5 + 1
  let m := if mp < 10 then mp + 3 else mp - 9
  (if m ≤ 2 then y + 1 else y, m, d)

/-- `datetime.fromtimestamp` for integer payload timestamps (UTC model;
negative Unix timestamps do not occur in aggregator payloads and are
clamped). -/
def fromTimestamp (n : Int) : PyDatetime :=
  let t := n.toNat
  let (ymd : Nat × Nat × Nat) := civilFromDays (t / 86400)
  ⟨ymd.1, ymd.2.1, ymd.2.2, t % 86400 / 3600, t % 3600 / 60, t % 60⟩

/-- The field loop of `_extract_created_at`. -/
def createdAtFrom (rj : RawJob) (now : PyDatetime) : List String → PyDatetime
  | [] => now
  | f :: fs =>
    match rawGet rj f with
    | some v =>
      if pyTruthy v then
        match v with
        | RawVal.str s =>
          match pyStrptimeAny s with
          | some dt => dt
          | none => createdAtFrom rj now fs
        | RawVal.int n => fromTimestamp n
      else createdAtFrom rj now fs
    | none => createdAtFrom rj now fs

/-- `_extract_created_at`; `now` stands for `datetime.utcnow()`. -/
def extract_created_at (rj : RawJob) (now : PyDatetime) : PyDatetime :=
  createdAtFrom rj now ["created_at", "posted_at", "date", "timestamp"]

/-- `JobNormalizer.normalize_job`. -/
def normalize_job (rj : RawJob) (source : String) (now : PyDatetime) : Option Job :=
  let source_job_id := sourceJobId rj
  let title := extractStr rj ["title", "job_title", "position", "role"]
  let company := extractStr rj ["company", "company_name", "employer", "organization"]
  let location := extractStr rj ["location", "city", "place", "address"]
  let description := extractOptStr rj ["description", "summary", "details", "requirements"]
  let apply_url := extractStr rj ["apply_url", "url", "link", "application_url", "apply_link"]
  let employment_type := extractOptStr rj ["employment_type", "type", "contract_type", "work_type"]
  let skills := extract_skills title description
  let seniority := determine_seniority title description
  let remote := is_remote title description location
  let created_at := extract_created_at rj now
  if source_job_id ≠ "" && title ≠ "" && company ≠ "" && apply_url ≠ "" then
    some { source := source, source_job_id := source_job_id, title := title, company := company,
           location := some location, description := description, apply_url := apply_url,
           skills := skills, seniority := seniority, remote := remote,
           created_at := created_at, employment_type := employment_type }
  else none

/-- `JobProcessor.process_raw_jobs`: normalize everything, dropping `None`s
(and the per-job exception handler never fires in the model). -/
def process_raw_jobs (raw : List (String × List RawJob)) (now : PyDatetime) : List Job :=
  raw.foldl (fun acc sj => acc ++ sj.2.filterMap (fun rj => normalize_job rj sj.1 now)) []

/-! ### The document store (`database.py` + MongoDB-style collections)

Collections are insertion-ordered lists of documents; `insert_one` appends a
document carrying a fresh object id drawn from a store-wide counter (the
model of Mongo `_id` generation). -/

/-- A `jobs_raw` document. -/
structure RawDoc where
  oid : Nat
  source : String
  fetched_at : PyDatetime
  payload : RawJob
deriving DecidableEq

/-- A `jobs_clean` document as written by `store_clean_jobs`. -/
structure CleanDoc where
  oid : Nat
  source : String
  source_job_id : String
  title : String
  company : String
  location : Option String
  description : Option String
  apply_url : String
  skills : List String
  seniority : Option String
  remote : Bool
  employment_type : Option String
  created_at : PyDatetime
deriving DecidableEq

/-- A `posts_ready` document as written by the orchestrator. -/
structure PostDoc where
  oid : Nat
  job_id : String
  platform : String
  caption : String
  status : String
  created_at : PyDatetime
  scheduled_for : Option PyDatetime
deriving DecidableEq

/-- A `posted_items` document. -/
structure PostedDoc where
  oid : Nat
  job_id : String
  platform : String
  posted_at : PyDatetime
  external_post_id : Option String
deriving DecidableEq

/-- The document store. -/
structure DBState where
  jobs_raw : List RawDoc := []
  jobs_clean : List CleanDoc := []
  posts_ready : List PostDoc := []
  posted_items : List PostedDoc := []
  nextOid : Nat := 0
deriving DecidableEq

/-- One `insert_one` into `jobs_raw`. -/
def storeRawOne (source : String) (now : PyDatetime) (st : DBState) (rj : RawJob) : DBState :=
  { st with
    jobs_raw := st.jobs_raw ++ [{ oid := st.nextOid, source := source, fetched_at := now,
                                  payload := rj }]
    nextOid := st.nextOid + 1 }

/-- `JobProcessor.store_raw_jobs`. -/
def store_raw_jobs (raw : List (String × List RawJob)) (now : PyDatetime) (st : DBState) :
    DBState :=
  raw.foldl (fun st sj => sj.2.foldl (storeRawOne sj.1 now) st) st

/-- The document `store_clean_jobs` builds from a `Job`. -/
def jobToDoc (oid : Nat) (j : Job) : CleanDoc :=
  { oid := oid, source := j.source, source_job_id := j.source_job_id, title := j.title,
    company := j.company, location := j.location, description := j.description,
    apply_url := j.apply_url, skills := j.skills, seniority := j.seniority,
    remote := j.remote, employment_type := j.employment_type, created_at := j.created_at }

/-- `JobProcessor.store_clean_jobs`: one `insert_one` per job, collecting
`str(inserted_id)`. -/
def store_clean_jobs (jobs : List Job) (st : DBState) : List String × DBState :=
  match jobs with
  | [] => ([], st)
  | j :: rest =>
    let st1 : DBState :=
      { st with jobs_clean := st.jobs_clean ++ [jobToDoc st.nextOid j]
                nextOid := st.nextOid + 1 }
    let (ids, st2) := store_clean_jobs rest st1
    (toString st.nextOid :: ids, st2)

/-- The `Job` that `get_existing_jobs` rebuilds from a stored document.  The
defaults of the `doc.get(...)` calls never fire because `store_clean_jobs`
writes every key (possibly with a null value, which `get` returns as-is). -/
def docToJob (d : CleanDoc) : Job :=
  { source := d.source, source_job_id := d.source_job_id, title := d.title,
    company := d.company, location := d.location, description := d.description,
    apply_url := d.apply_url, skills := d.skills, seniority := d.seniority,
    remote := d.remote, created_at := d.created_at, employment_type := d.employment_type }

/-- `JobProcessor.get_existing_jobs` (`find({}).limit(2000)`). -/
def get_existing_jobs (st : DBState) : List Job :=
  (st.jobs_clean.take 2000).map docToJob

/-- `JobProcessor.process_job_pipeline`: store raw, normalize, fetch
existing, deduplicate the concatenation, filter, store clean, return ids. -/
def process_job_pipeline (flt : Filters) (now : PyDatetime)
    (raw : List (String × List RawJob)) (st : DBState) :
    Option (List String × DBState) :=
  let st1 := store_raw_jobs raw now st
  let normalized := process_raw_jobs raw now
  let existing := get_existing_jobs st1
  match deduplicate_jobs (existing ++ normalized) with
  | none => none
  | some unique =>
    match filter_jobs flt unique with
    | none => none
    | some filtered => some (store_clean_jobs filtered st1)

/-! ### Captions and publishing (`caption_generator.py`, `orchestrator.py`)

The generative-language API and the browser-automation posters are external
collaborators; they enter the model as oracles (`capGen` produces the
platform-to-caption dictionary, `oracle` the per-post success and id; the
poster wrapper catches its own exceptions and always returns a result
pair). -/

/-- Per-platform caption configuration (`posting.captions` in the YAML). -/
structure CaptionCfg where
  max_length : Option Nat := none
  hashtag_count : Option Nat := none
deriving DecidableEq

/-- The `posting` section of the configuration. -/
structure PostingConfig where
  platforms : List String := []
  max_posts_per_day : List (String × Nat) := []
  captions : List (String × CaptionCfg) := []
deriving DecidableEq

/-- String-keyed dictionary lookup. -/
def lookupStr (m : List (String × String)) (k : String) : Option String :=
  (List.find? (fun p => p.1 == k) m).map (fun p => p.2)

/-- `CaptionGenerator.validate_caption`. -/
def validate_caption (cfgs : List (String × CaptionCfg)) (caption platform : String) : Bool :=
  let pc := ((List.find? (fun p => p.1 == platform) cfgs).map (fun p => p.2)).getD {}
  if caption.length > pc.max_length.getD 280 then false
  else if platform = "linkedin" then decide (pc.hashtag_count.getD 4 ≤ pyCountChar '#' caption)
  else if platform = "x" then decide (pc.hashtag_count.getD 2 ≤ pyCountChar '#' caption)
  else true

/-- The emoji table of `optimize_caption`. -/
def emojisFor (platform : String) : List String :=
  if platform = "linkedin" then ["🚀", "💼", "📍", "🌟", "🔥"]
  else if platform = "x" then ["🚀", "💼", "📍", "🔥"]
  else []

/-- One line of `optimize_caption`'s `elif` chain. -/
def optimizeLine (es : List String) (i : Nat) (line : String) : String :=
  if i = 0 && !es.isEmpty then es.getD 0 "" ++ " " ++ line
  else if pyIn "location" (pyLower line) && es.length > 1 then es.getD 1 "" ++ " " ++ line
  else if pyIn "skills" (pyLower line) && es.length > 2 then es.getD 2 "" ++ " " ++ line
  else if pyIn "apply" (pyLower line) && es.length > 3 then es.getD 3 "" ++ " " ++ line
  else line

/-- `CaptionGenerator.optimize_caption`. -/
def optimize_caption (caption platform : String) : String :=
  let es := emojisFor platform
  String.intercalate "\n" ((caption.splitOn "\n").enum.map (fun p => optimizeLine es p.1 p.2))

/-- The per-platform body of `_generate_captions_for_jobs`: store a
validated, optimized caption as a `pending` post. -/
def genPlatformStep (captions : List (String × String)) (capCfgs : List (String × CaptionCfg))
    (job_id : String) (now : PyDatetime) (st : DBState) (platform : String) : DBState :=
  match lookupStr captions platform with
  | some caption =>
    if validate_caption capCfgs caption platform then
      { st with
        posts_ready := st.posts_ready ++
          [{ oid := st.nextOid, job_id := job_id, platform := platform,
             caption := optimize_caption caption platform, status := "pending",
             created_at := now, scheduled_for := none }]
        nextOid := st.nextOid + 1 }
    else st
  | none => st

/-- `_generate_captions_for_jobs`, one `job_id`: look the job up, obtain the
caption dictionary, and run the platform loop.  `now` stands for
`datetime.now()`. -/
def generateCaptionsForJob (cfg : PostingConfig) (capGen : CleanDoc → List (String × String))
    (now : PyDatetime) (st : DBState) (job_id : String) : DBState :=
  match st.jobs_clean.find? (fun d => toString d.oid == job_id) with
  | none => st
  | some job =>
    cfg.platforms.foldl (genPlatformStep (capGen job) cfg.captions job_id now) st

/-- `JobAutomationOrchestrator._generate_captions_for_jobs`. -/
def generate_captions_for_jobs (cfg : PostingConfig)
    (capGen : CleanDoc → List (String × String)) (now : PyDatetime)
    (job_ids : List String) (st : DBState) : DBState :=
  job_ids.foldl (generateCaptionsForJob cfg capGen now) st

/-- `SocialPosterManager.post_to_all_platforms`: every initialized poster
reports a `(success, post_id)` pair, a missing caption counting as failure. -/
def post_to_all_platforms (posters : List String)
    (oracle : String → String → CleanDoc → Bool × Option String)
    (captions : List (String × String)) (job : CleanDoc) :
    List (String × (Bool × Option String)) :=
  posters.map (fun platform =>
    match lookupStr captions platform with
    | some caption => (platform, oracle platform caption job)
    | none => (platform, (false, some "no_caption")))

/-- `results.get(post['platform'], (False, None))`. -/
def resultFor (results : List (String × (Bool × Option String))) (platform : String) :
    Bool × Option String :=
  ((List.find? (fun p => p.1 == platform) results).map (fun p => p.2)).getD (false, none)

/-- `utcnow().replace(hour=0, minute=0, second=0, microsecond=0)`. -/
def startOfDay (now : PyDatetime) : PyDatetime :=
  { now with hour := 0, minute := 0, second := 0 }

/-- `_get_today_post_count`. -/
def getTodayPostCount (st : DBState) (now : PyDatetime) (platform : Option String) : Nat :=
  (st.posted_items.filter (fun d =>
    dtLe (startOfDay now) d.posted_at &&
    (match platform with | some p => d.platform == p | none => true))).length

/-- `update_one({'_id': oid}, {'$set': {'status': s}})`: first match only. -/
def setPostStatus (posts : List PostDoc) (oid : Nat) (s : String) : List PostDoc :=
  match posts with
  | [] => []
  | d :: rest =>
    if d.oid = oid then { d with status := s } :: rest
    else d :: setPostStatus rest oid s

/-- One iteration of `post_pending_content`'s loop: look up the job (skipped
posts stay untouched), attempt publication, then flip the status to
`posted` (also recording a `posted_items` document) or `failed`. -/
def processPendingPost (posters : List String)
    (oracle : String → String → CleanDoc → Bool × Option String)
    (now : PyDatetime) (st : DBState) (post : PostDoc) : DBState :=
  match st.jobs_clean.find? (fun d => toString d.oid == post.job_id) with
  | none => st
  | some job =>
    let results := post_to_all_platforms posters oracle [(post.platform, post.caption)] job
    let r := resultFor results post.platform
    if r.1 then
      { st with
        posts_ready := setPostStatus st.posts_ready post.oid "posted"
        posted_items := st.posted_items ++
          [{ oid := st.nextOid, job_id := post.job_id, platform := post.platform,
             posted_at := now, external_post_id := r.2 }]
        nextOid := st.nextOid + 1 }
    else { st with posts_ready := setPostStatus st.posts_ready post.oid "failed" }

/-- The pending-post selection of `post_pending_content`. -/
def pendingSelection (st : DBState) (platform : Option String) : List PostDoc :=
  st.posts_ready.filter (fun d =>
    d.status == "pending" &&
    (match platform with | some p => d.platform == p | none => true))

/-- `max_posts = config.posting.max_posts_per_day.get(platform or 'linkedin', 4)`. -/
def postingLimit (cfg : PostingConfig) (platform : Option String) : Nat :=
  ((List.find? (fun p => p.1 == platform.getD "linkedin") cfg.max_posts_per_day).map
    (fun p => p.2)).getD 4

/-- `JobAutomationOrchestrator.post_pending_content`: snapshot the pending
posts, enforce the daily limit, then process the prefix that fits. -/
def post_pending_content (cfg : PostingConfig) (posters : List String)
    (oracle : String → String → CleanDoc → Bool × Option String)
    (now : PyDatetime) (platform : Option String) (st : DBState) : DBState :=
  if (pendingSelection st platform).isEmpty then st
  else if postingLimit cfg platform ≤ getTodayPostCount st now platform then st
  else
    ((pendingSelection st platform).take
        (postingLimit cfg platform - getTodayPostCount st now platform)).foldl
      (processPendingPost posters oracle now) st

/-! ### Statement vocabulary -/

/-- The claimed greedy selection discipline of `deduplicate_jobs`: starting
from an already-kept list, later jobs are kept exactly when they are not a
fuzzy duplicate (at the default threshold, with the scan stopping at the
first hit) of any already-kept earlier job. -/
inductive GreedySel : List Job → List Job → List Job → Prop where
  | done (kept : List Job) : GreedySel kept [] kept
  | dropJob (kept : List Job) (x : Job) (xs r pre post : List Job) (d : Job)
      (hsplit : kept = pre ++ d :: post)
      (hpre : ∀ e ∈ pre, is_duplicate_job x e = some false)
      (hdup : is_duplicate_job x d = some true)
      (hrest : GreedySel kept xs r) : GreedySel kept (x :: xs) r
  | keepJob (kept : List Job) (x : Job) (xs r : List Job)
      (hnew : ∀ e ∈ kept, is_duplicate_job x e = some false)
      (hrest : GreedySel (kept ++ [x]) xs r) : GreedySel kept (x :: xs) r

/-- All of `s`, appended one by one after `acc`, would be kept: no element
fuzzy-matches `acc` or an earlier element of `s`. -/
def Fresh (acc : List Job) : List Job → Prop
  | [] => True
  | x :: xs => anyDuplicate x acc = some false ∧ Fresh (acc ++ [x]) xs

/-- The documents `store_clean_jobs` appends, with their object ids. -/
def cleanDocsFrom (oid : Nat) : List Job → List CleanDoc
  | [] => []
  | j :: rest => jobToDoc oid j :: cleanDocsFrom (oid + 1) rest

/-- The id strings `store_clean_jobs` returns. -/
def idsFrom (oid : Nat) : List Job → List String
  | [] => []
  | _ :: rest => toString oid :: idsFrom (oid + 1) rest

/-- Total number of raw jobs in a fetch result. -/
def rawCount (raw : List (String × List RawJob)) : Nat :=
  (raw.map (fun sj => sj.2.length)).sum

/-- A `posts_ready` status is one of the three legal values. -/
def statusOk (d : PostDoc) : Prop :=
  d.status = "pending" ∨ d.status = "posted" ∨ d.status = "failed"

/-- Whether the publication attempt for a pending post succeeds, as
`post_pending_content` computes it (job lookup, then the poster manager's
result for the post's platform). -/
def publishSucceeds (posters : List String)
    (oracle : String → String → CleanDoc → Bool × Option String)
    (st : DBState) (post : PostDoc) : Bool :=
  match st.jobs_clean.find? (fun d => toString d.oid == post.job_id) with
  | none => false
  | some job =>
    (resultFor (post_to_all_platforms posters oracle [(post.platform, post.caption)] job)
      post.platform).1

/-- The document a processed pending post becomes: `posted` exactly on
success, `failed` otherwise. -/
def postAfterAttempt (posters : List String)
    (oracle : String → String → CleanDoc → Bool × Option String)
    (st : DBState) (d : PostDoc) : PostDoc :=
  { d with status := if publishSucceeds posters oracle st d then "posted" else "failed" }

/-- How `post_pending_content` may change one stored `posts_ready` document:
either it is left untouched, or it was `pending` and its status was flipped
to `posted` exactly when its publication attempt succeeds and to `failed`
otherwise, all other fields unchanged. -/
def postRel (posters : List String)
    (oracle : String → String → CleanDoc → Bool × Option String)
    (st0 : DBState) (d' d : PostDoc) : Prop :=
  d' = d ∨ (d.status = "pending" ∧ d' = postAfterAttempt posters oracle st0 d)

/-! ### Concrete inputs for witnesses and counterexamples -/

def wBaseDt : PyDatetime := ⟨2024, 5, 1, 0, 0, 0⟩

def wJobA : Job :=
  { source := "s", source_job_id := "1", title := "dev a", company := "acme",
    location := some "pune", description := none, apply_url := "u", skills := [],
    seniority := none, remote := false, created_at := wBaseDt }

def wJobB : Job := { wJobA with
  source_job_id := "2"
  title := "qa b" }

def wJobA2 : Job := { wJobA with source_job_id := "3" }

def cexLocNilA : Job := { wJobA with location := none }

def cexLocNilB : Job := { wJobA with
  source_job_id := "9"
  location := none }

def cexJob8 : Job := { wJobA with
  source_job_id := "8"
  location := none }

def cexJob9 : Job := { wJobA with
  title := "ml eng"
  location := none }

def cexF5 : Filters := { allowed_locations := ["pune"] }

def cexJob5 : Job := { wJobA with
  source_job_id := "5"
  location := none }

def wF5 : Filters := { allowed_locations := ["pune"] }

/-- A raw fetch result with a single well-formed job. -/
def cexRaw : List (String × List RawJob) :=
  [("src", [[("title", RawVal.str "dev abc"), ("company", RawVal.str "acme"),
             ("apply_url", RawVal.str "u"), ("id", RawVal.str "7"),
             ("location", RawVal.str "pune")]])]

def c1St : DBState := { jobs_clean := [jobToDoc 0 wJobA], nextOid := 1 }

/-- The result of one pipeline run on `cexRaw` from the empty store. -/
def wC6run : List String × DBState :=
  (process_job_pipeline {} wBaseDt cexRaw {}).getD ([], {})

def w7Post : PostDoc :=
  { oid := 1, job_id := "0", platform := "linkedin", caption := "cap",
    status := "pending", created_at := wBaseDt, scheduled_for := none }

def w7St : DBState :=
  { jobs_clean := [jobToDoc 0 wJobA], posts_ready := [w7Post], nextOid := 5 }

def w7Oracle : String → String → CleanDoc → Bool × Option String :=
  fun _ _ _ => (true, some "postid")

def w7Cfg : PostingConfig := { platforms := ["linkedin"] }

/-! ## Theorems -/

/-! ### Deduplication lemmas -/

theorem anyDuplicate_eq_false_iff (j : Job) (u : List Job) :
    anyDuplicate j u = some false ↔ ∀ e ∈ u, is_duplicate_job j e = some false := by
  induction u with
  | nil => simp [anyDuplicate]
  | cons e rest ih =>
    cases h : is_duplicate_job j e with
    | none => simp [anyDuplicate, h, List.forall_mem_cons]
    | some d =>
      cases d with
      | true => simp [anyDuplicate, h, List.forall_mem_cons]
      | false => simp [anyDuplicate, h, List.forall_mem_cons, ih]

theorem anyDuplicate_eq_true_iff (j : Job) (u : List Job) :
    anyDuplicate j u = some true ↔
      ∃ pre d post, u = pre ++ d :: post ∧
        (∀ e ∈ pre, is_duplicate_job j e = some false) ∧
        is_duplicate_job j d = some true := by
  induction u with
  | nil =>
    simp only [anyDuplicate]
    constructor
    · intro hh; exact absurd hh (by simp)
    · rintro ⟨pre, d, post, hsplit, -, -⟩
      exact absurd hsplit (by cases pre <;> simp)
  | cons e rest ih =>
    cases h : is_duplicate_job j e with
    | none =>
      simp only [anyDuplicate, h]
      constructor
      · intro hh; exact absurd hh (by simp)
      · rintro ⟨pre, d, post, hsplit, hpre, hdup⟩
        cases pre with
        | nil =>
          injection hsplit with h1 h2
          exact absurd hdup (by rw [← h1]; simp [h])
        | cons p pre' =>
          injection hsplit with h1 h2
          exact absurd (hpre p (by simp)) (by rw [← h1]; simp [h])
    | some b =>
      cases b with
      | true =>
        simp only [anyDuplicate, h]
        constructor
        · intro _; exact ⟨[], e, rest, rfl, by simp, h⟩
        · intro _; trivial
      | false =>
        simp only [anyDuplicate, h]
        rw [ih]
        constructor
        · rintro ⟨pre, d, post, hsplit, hpre, hdup⟩
          exact ⟨e :: pre, d, post, by rw [hsplit]; rfl,
            List.forall_mem_cons.mpr ⟨h, hpre⟩, hdup⟩
        · rintro ⟨pre, d, post, hsplit, hpre, hdup⟩
          cases pre with
          | nil =>
            injection hsplit with h1 h2
            exact absurd hdup (by rw [← h1]; simp [h])
          | cons p pre' =>
            injection hsplit with h1 h2
            exact ⟨pre', d, post, h2, fun e' he' => hpre e' (by simp [he']), hdup⟩

theorem dedupLoop_sel : ∀ (xs u r : List Job), dedupLoop u xs = some r → GreedySel u xs r := by
  intro xs
  induction xs with
  | nil =>
    intro u r h
    simp only [dedupLoop, Option.some.injEq] at h
    exact h ▸ GreedySel.done u
  | cons x rest ih =>
    intro u r h
    cases hd : anyDuplicate x u with
    | none =>
      simp only [dedupLoop, hd] at h
      exact Option.noConfusion h
    | some b =>
      cases b with
      | true =>
        simp only [dedupLoop, hd] at h
        obtain ⟨pre, d, post, hsplit, hpre, hdup⟩ := (anyDuplicate_eq_true_iff x u).mp hd
        exact GreedySel.dropJob u x rest r pre post d hsplit hpre hdup (ih u r h)
      | false =>
        simp only [dedupLoop, hd] at h
        exact GreedySel.keepJob u x rest r ((anyDuplicate_eq_false_iff x u).mp hd) (ih _ r h)

theorem dedupLoop_spec : ∀ (xs u r : List Job), dedupLoop u xs = some r →
    ∃ s, r = u ++ s ∧ List.Sublist s xs ∧ Fresh u s := by
  intro xs
  induction xs with
  | nil =>
    intro u r h
    simp only [dedupLoop, Option.some.injEq] at h
    exact ⟨[], by simp [h.symm], List.nil_sublist [], by simp [Fresh]⟩
  | cons x rest ih =>
    intro u r h
    cases hd : anyDuplicate x u with
    | none =>
      simp only [dedupLoop, hd] at h
      exact Option.noConfusion h
    | some b =>
      cases b with
      | true =>
        simp only [dedupLoop, hd] at h
        obtain ⟨s, hr, hsub, hf⟩ := ih u r h
        exact ⟨s, hr, List.Sublist.cons x hsub, hf⟩
      | false =>
        simp only [dedupLoop, hd] at h
        obtain ⟨s, hr, hsub, hf⟩ := ih (u ++ [x]) r h
        refine ⟨x :: s, by simp [hr], List.Sublist.cons₂ x hsub, ?_⟩
        exact ⟨hd, hf⟩

theorem fresh_run : ∀ (s u : List Job), Fresh u s → dedupLoop u s = some (u ++ s) := by
  intro s
  induction s with
  | nil => intro u _; simp [dedupLoop]
  | cons x s' ih =>
    intro u hf
    obtain ⟨h1, h2⟩ := hf
    simp only [dedupLoop, h1]
    rw [ih (u ++ [x]) h2]
    simp

/-! ### Claim C2 -/

/-- C2: for a non-empty input `deduplicate_jobs` — when it returns a list at
all — returns an order-preserving sublist that keeps the first job and keeps
each later job exactly when it fuzzy-matches no already-kept earlier job;
for the empty list it returns the empty list.  (The claim's unconditional
"returns" fails: a `None`-location comparison raises, see the
counterexample.) -/
theorem C2_dedup_greedy :
    deduplicate_jobs ([] : List Job) = some [] ∧
    ∀ (j0 : Job) (rest r : List Job), deduplicate_jobs (j0 :: rest) = some r →
      GreedySel [j0] rest r ∧ r.head? = some j0 ∧ List.Sublist r (j0 :: rest) := by
  refine ⟨rfl, ?_⟩
  intro j0 rest r h
  simp only [deduplicate_jobs] at h
  refine ⟨dedupLoop_sel rest [j0] r h, ?_, ?_⟩
  · obtain ⟨s, hr, -, -⟩ := dedupLoop_spec rest [j0] r h
    subst hr; rfl
  · obtain ⟨s, hr, hsub, -⟩ := dedupLoop_spec rest [j0] r h
    subst hr
    exact List.Sublist.cons₂ j0 hsub

/-- C2 counterexample: on a non-empty list of `Job` values (two jobs with
equal titles and companies and `None` locations) `deduplicate_jobs` raises
instead of returning a list, so the claim's universal "returns a
subsequence" is false. -/
theorem C2_counterexample :
    deduplicate_jobs [cexLocNilA, cexLocNilB] = none ∧ [cexLocNilA, cexLocNilB] ≠ [] := by
  constructor
  · rfl
  · simp

/-- C2 witness. -/
theorem C2_witness :
    GreedySel [wJobA] [wJobB] [wJobA, wJobB] ∧
    ([wJobA, wJobB] : List Job).head? = some wJobA ∧
    List.Sublist [wJobA, wJobB] [wJobA, wJobB] :=
  C2_dedup_greedy.2 wJobA [wJobB] [wJobA, wJobB] (by rfl)

/-! ### Similarity lemmas -/

theorem qltNatDiv100_iff (t : ℚ) (n : Nat) :
    qltNatDiv100 t n = true ↔ t < (n : ℚ) / 100 := by
  unfold qltNatDiv100
  rw [decide_eq_true_iff]
  have hden : (0:ℚ) < (t.den : ℚ) := by exact_mod_cast t.den_pos
  rw [lt_div_iff₀ (by norm_num : (0:ℚ) < 100)]
  conv_rhs => rw [← Rat.num_div_den t]
  rw [div_mul_eq_mul_div, div_lt_iff₀ hden]
  constructor <;> intro h <;> exact_mod_cast h

theorem mkRat_seven_tenths : (mkRat 7 10 : ℚ) = 7 / 10 := by
  rw [Rat.mkRat_eq_div]
  norm_num

theorem lcsF_comm : ∀ (f : Nat) (a b : List Char), lcsF f a b = lcsF f b a := by
  intro f
  induction f with
  | zero => intro a b; rfl
  | succ f ih =>
    intro a b
    cases a with
    | nil => cases b <;> rfl
    | cons x as =>
      cases b with
      | nil => rfl
      | cons y bs =>
        simp only [lcsF]
        by_cases h : x = y
        · subst h
          rw [if_pos rfl, if_pos rfl, ih]
        · rw [if_neg h, if_neg (fun hh => h hh.symm), ih as (y :: bs), ih (x :: as) bs,
            Nat.max_comm]

theorem lcsLen_comm (a b : List Char) : lcsLen a b = lcsLen b a := by
  unfold lcsLen
  rw [lcsF_comm, Nat.add_comm]

theorem fuzzRatio100_comm (a b : List Char) : fuzzRatio100 a b = fuzzRatio100 b a := by
  unfold fuzzRatio100
  by_cases h : a = b
  · subst h; rfl
  · have h' : ¬ b = a := fun hh => h hh.symm
    by_cases ha : a.length = 0 <;> by_cases hb : b.length = 0 <;>
      simp [h, h', ha, hb, lcsLen_comm, Nat.add_comm]

theorem tokenSortRatio100_comm (a b : String) :
    tokenSortRatio100 a b = tokenSortRatio100 b a := by
  unfold tokenSortRatio100
  exact fuzzRatio100_comm _ _

theorem dupFuzzyCheck_comm (j1 j2 : Job) (t : ℚ) :
    dupFuzzyCheck j1 j2 t = dupFuzzyCheck j2 j1 t := by
  unfold dupFuzzyCheck
  cases j1.location <;> cases j2.location <;>
    simp [tokenSortRatio100_comm, fuzzRatio100_comm]

theorem is_duplicate_job_comm (j1 j2 : Job) (t : ℚ) :
    is_duplicate_job j1 j2 t = is_duplicate_job j2 j1 t := by
  unfold is_duplicate_job
  by_cases hc : pyLower j1.company = pyLower j2.company ∧ pyLower j1.title = pyLower j2.title
  · rw [if_pos hc, if_pos ⟨hc.1.symm, hc.2.symm⟩]
    cases h1 : j1.location with
    | none =>
      cases h2 : j2.location with
      | none => rfl
      | some l2 => rfl
    | some l1 =>
      cases h2 : j2.location with
      | none => rfl
      | some l2 =>
        by_cases he : pyLower l1 = pyLower l2
        · simp [he]
        · simp [he, show ¬ pyLower l2 = pyLower l1 from fun hh => he hh.symm,
            dupFuzzyCheck_comm j1 j2 t]
  · rw [if_neg hc, if_neg (fun hh => hc ⟨hh.1.symm, hh.2.symm⟩)]
    exact dupFuzzyCheck_comm j1 j2 t

theorem dupFuzzyCheck_eq_some_true_iff (j1 j2 : Job) (t : ℚ) (l1 l2 : String)
    (h1 : j1.location = some l1) (h2 : j2.location = some l2) :
    dupFuzzyCheck j1 j2 t = some true ↔
      (qltNatDiv100 t (tokenSortRatio100 (pyLower j1.title) (pyLower j2.title)) = true ∧
       qltNatDiv100 (mkRat 7 10)
         (fuzzRatio100 (pyLower j1.company).data (pyLower j2.company).data) = true ∧
       qltNatDiv100 (mkRat 7 10)
         (fuzzRatio100 (pyLower l1).data (pyLower l2).data) = true) := by
  simp only [dupFuzzyCheck, h1, h2]
  by_cases hts : qltNatDiv100 t (tokenSortRatio100 (pyLower j1.title) (pyLower j2.title)) = true <;>
    by_cases hcs : qltNatDiv100 (mkRat 7 10)
      (fuzzRatio100 (pyLower j1.company).data (pyLower j2.company).data) = true <;>
    by_cases hls : qltNatDiv100 (mkRat 7 10)
      (fuzzRatio100 (pyLower l1).data (pyLower l2).data) = true <;>
    simp [hts, hcs, hls]

/-! ### Claim C3 -/

/-- C3: with string locations on both sides, `is_duplicate_job` returns
`True` exactly when the three key fields agree case-insensitively or the
lowercased titles' token-sort similarity strictly exceeds the threshold
while the company and location ratios each strictly exceed 0.7; and no field
beyond title, company and location influences the outcome. -/
theorem C3_dup_characterization :
    (∀ (t : ℚ) (j1 j2 : Job) (l1 l2 : String),
      j1.location = some l1 → j2.location = some l2 →
      (is_duplicate_job j1 j2 t = some true ↔
        ((pyLower j1.company = pyLower j2.company ∧ pyLower j1.title = pyLower j2.title ∧
          pyLower l1 = pyLower l2) ∨
         (t < (tokenSortRatio100 (pyLower j1.title) (pyLower j2.title) : ℚ) / 100 ∧
          (7 : ℚ) / 10 <
            (fuzzRatio100 (pyLower j1.company).data (pyLower j2.company).data : ℚ) / 100 ∧
          (7 : ℚ) / 10 < (fuzzRatio100 (pyLower l1).data (pyLower l2).data : ℚ) / 100)))) ∧
    (∀ (t : ℚ) (j1 j2 k1 k2 : Job),
      k1.title = j1.title → k1.company = j1.company → k1.location = j1.location →
      k2.title = j2.title → k2.company = j2.company → k2.location = j2.location →
      is_duplicate_job k1 k2 t = is_duplicate_job j1 j2 t) := by
  constructor
  · intro t j1 j2 l1 l2 h1 h2
    have hd := dupFuzzyCheck_eq_some_true_iff j1 j2 t l1 l2 h1 h2
    rw [qltNatDiv100_iff, qltNatDiv100_iff, qltNatDiv100_iff, mkRat_seven_tenths] at hd
    simp only [is_duplicate_job, h1, h2]
    by_cases hc : pyLower j1.company = pyLower j2.company ∧ pyLower j1.title = pyLower j2.title
    · simp only [if_pos hc]
      by_cases he : pyLower l1 = pyLower l2
      · simp only [if_pos he]
        exact ⟨fun _ => Or.inl ⟨hc.1, hc.2, he⟩, fun _ => by trivial⟩
      · simp only [if_neg he]
        rw [hd]
        constructor
        · rintro ⟨a, b, c⟩; exact Or.inr ⟨a, b, c⟩
        · rintro (⟨-, -, hl⟩ | ⟨a, b, c⟩)
          · exact absurd hl he
          · exact ⟨a, b, c⟩
    · simp only [if_neg hc]
      rw [hd]
      constructor
      · rintro ⟨a, b, c⟩; exact Or.inr ⟨a, b, c⟩
      · rintro (⟨hc1, hc2, -⟩ | ⟨a, b, c⟩)
        · exact absurd ⟨hc1, hc2⟩ hc
        · exact ⟨a, b, c⟩
  · intro t j1 j2 k1 k2 ht1 hc1 hl1 ht2 hc2 hl2
    simp only [is_duplicate_job, dupFuzzyCheck, ht1, hc1, hl1, ht2, hc2, hl2]

/-- C3 witness. -/
theorem C3_witness :
    is_duplicate_job wJobA wJobB (mkRat 4 5) = some true ↔
      ((pyLower wJobA.company = pyLower wJobB.company ∧
        pyLower wJobA.title = pyLower wJobB.title ∧ pyLower "pune" = pyLower "pune") ∨
       (mkRat 4 5 < (tokenSortRatio100 (pyLower wJobA.title) (pyLower wJobB.title) : ℚ) / 100 ∧
        (7 : ℚ) / 10 <
          (fuzzRatio100 (pyLower wJobA.company).data (pyLower wJobB.company).data : ℚ) / 100 ∧
        (7 : ℚ) / 10 < (fuzzRatio100 (pyLower "pune").data (pyLower "pune").data : ℚ) / 100)) :=
  C3_dup_characterization.1 (mkRat 4 5) wJobA wJobB "pune" "pune" rfl rfl

/-! ### Claim C8 -/

/-- C8 (amended): `is_duplicate_job` evaluates to a Boolean whenever both
locations are strings; a `None` location makes the comparison raise (see the
counterexample). -/
theorem C8_total_some_locations :
    ∀ (t : ℚ) (j1 j2 : Job) (l1 l2 : String),
      j1.location = some l1 → j2.location = some l2 →
      ∃ b, is_duplicate_job j1 j2 t = some b := by
  intro t j1 j2 l1 l2 h1 h2
  simp only [is_duplicate_job, dupFuzzyCheck, h1, h2]
  repeat' split
  all_goals exact ⟨_, rfl⟩

/-- C8 counterexample: two equal jobs whose `location` is `None` make
`is_duplicate_job` raise (`AttributeError` on `None.lower()`) instead of
returning a Boolean. -/
theorem C8_counterexample : is_duplicate_job cexJob8 cexJob8 = none := by decide

/-- C8 witness. -/
theorem C8_witness : ∃ b, is_duplicate_job wJobA wJobB (mkRat 4 5) = some b :=
  C8_total_some_locations (mkRat 4 5) wJobA wJobB "pune" "pune" rfl rfl

/-! ### Claim C9 -/

/-- C9 (amended): `is_duplicate_job` is symmetric at every threshold (raises
included); it is reflexive at every threshold on every job whose location is
a string, while a `None` location makes the reflexive comparison raise (see
the counterexample). -/
theorem C9_dup_symm_refl :
    (∀ (t : ℚ) (j1 j2 : Job), is_duplicate_job j1 j2 t = is_duplicate_job j2 j1 t) ∧
    (∀ (t : ℚ) (j : Job) (l : String), j.location = some l →
      is_duplicate_job j j t = some true) := by
  constructor
  · intro t j1 j2
    exact is_duplicate_job_comm j1 j2 t
  · intro t j l hl
    simp [is_duplicate_job, hl]

/-- C9 counterexample: reflexivity fails on a job with a `None` location —
the comparison raises rather than returning `True`. -/
theorem C9_counterexample : is_duplicate_job cexJob9 cexJob9 ≠ some true := by decide

/-- C9 witness. -/
theorem C9_witness : is_duplicate_job wJobA wJobA (mkRat 4 5) = some true :=
  C9_dup_symm_refl.2 (mkRat 4 5) wJobA "pune" rfl

/-! ### Claim C10 -/

/-- C10: `deduplicate_jobs` is idempotent — applied to its own output it
returns that output unchanged. -/
theorem C10_dedup_idempotent : ∀ (l r : List Job), deduplicate_jobs l = some r →
    deduplicate_jobs r = some r := by
  intro l r h
  cases l with
  | nil =>
    simp only [deduplicate_jobs, Option.some.injEq] at h
    rw [← h]
    rfl
  | cons j0 rest =>
    simp only [deduplicate_jobs] at h
    obtain ⟨s, hr, -, hf⟩ := dedupLoop_spec rest [j0] r h
    subst hr
    show dedupLoop [j0] s = some ([j0] ++ s)
    exact fresh_run s [j0] hf

/-- C10 witness. -/
theorem C10_witness : deduplicate_jobs [wJobA] = some [wJobA] :=
  C10_dedup_idempotent [wJobA, wJobA2] [wJobA] (by rfl)

/-! ### Claim C4 -/

/-- C4 (amended): in each stage the experience-years patterns decide
acceptance by `captured years ≤ 2` only once the stage's earlier checks have
not already decided: for the seniority stage, when no excluded and no
preferred keyword occurs; for the title stage, when no entry-level indicator
occurs; the description stage applies its patterns first and hence
unconditionally.  (As claimed — unconditionally — it is false: an
entry-level keyword accepts "junior 5+ years" although the pattern captures
5, see the counterexample.) -/
theorem C4_experience_years :
    (∀ (f : Filters) (s : String) (n : Nat), s ≠ "" →
      (∀ e ∈ f.excluded_seniority, pyIn (pyLower e) (pyLower s) = false) →
      (∀ p ∈ f.preferred_seniority, pyIn (pyLower p) (pyLower s) = false) →
      firstPatternNum yearsPatterns (pyLower s).data = some n →
      passes_seniority_filter f (some s) = decide (n ≤ 2)) ∧
    (∀ (t : String) (n : Nat), t ≠ "" →
      (∀ i ∈ entryLevelIndicators, pyIn i (pyLower t) = false) →
      firstPatternNum yearsPatterns (pyLower t).data = some n →
      passes_job_title_filter t = decide (n ≤ 2)) ∧
    (∀ (d s : Option String) (n : Nat),
      firstPatternNum entryLevelPatterns (experienceText d s).data = some n →
      passes_experience_filter d s = decide (n ≤ 2)) := by
  refine ⟨?_, ?_, ?_⟩
  · intro f s n hs hexc hpref hpat
    have he : (f.excluded_seniority.any fun e => pyIn (pyLower e) (pyLower s)) = false := by
      rw [List.any_eq_false]
      intro x hx
      simp [hexc x hx]
    have hp : (f.preferred_seniority.any fun p => pyIn (pyLower p) (pyLower s)) = false := by
      rw [List.any_eq_false]
      intro x hx
      simp [hpref x hx]
    simp [passes_seniority_filter, hs, he, hp, hpat]
  · intro t n ht hind hpat
    have hi : (entryLevelIndicators.any fun i => pyIn i (pyLower t)) = false := by
      rw [List.any_eq_false]
      intro x hx
      simp [hind x hx]
    simp [passes_job_title_filter, ht, hi, hpat]
  · intro d s n hpat
    by_cases h0 : experienceText d s = ""
    · rw [h0] at hpat
      have hnone : firstPatternNum entryLevelPatterns ("" : String).data = none := rfl
      rw [hnone] at hpat
      exact Option.noConfusion hpat
    · simp [passes_experience_filter, h0, hpat]

/-- C4 counterexample: the title pattern `(\d+)[\+-]?\s*years?` matches
"junior 5+ years" with first captured number 5 (greater than 2), yet the
title stage accepts the job because the `junior` indicator is checked
first. -/
theorem C4_counterexample :
    firstPatternNum yearsPatterns (pyLower "junior 5+ years").data = some 5 ∧
    passes_job_title_filter "junior 5+ years" = true := by decide

/-- C4 witness. -/
theorem C4_witness :
    passes_seniority_filter {} (some "2+ years") = decide (2 ≤ 2) ∧
    passes_job_title_filter "abc 4 years" = decide (4 ≤ 2) ∧
    passes_experience_filter (some "3 years experience") none = decide (3 ≤ 2) :=
  ⟨C4_experience_years.1 {} "2+ years" 2 (by decide) (by decide) (by decide) (by decide),
   C4_experience_years.2.1 "abc 4 years" 4 (by decide) (by decide) (by decide),
   C4_experience_years.2.2 (some "3 years experience") none 3 (by decide)⟩

/-! ### Claim C5 -/

/-- C5 (amended): a job passes `_passes_filters` exactly when it passes all
five stage filters, and — whenever no stage raises — `filter_jobs` returns,
in input order, exactly the jobs passing all five stages.  (As claimed — for
every list — it is false: with location restrictions configured, a
`None`-location job makes the location stage raise, see the
counterexample.) -/
theorem C5_filter_conjunction :
    (∀ (f : Filters) (j : Job), passes_filters f j = some true ↔
      (passes_location_filter f j.location = some true ∧
       passes_skills_filter f j.skills = true ∧
       passes_seniority_filter f j.seniority = true ∧
       passes_job_title_filter j.title = true ∧
       passes_experience_filter j.description j.seniority = true)) ∧
    (∀ (f : Filters) (l : List Job), (∀ j ∈ l, passes_filters f j ≠ none) →
      filter_jobs f l = some (l.filter (fun j => passes_filters f j == some true))) := by
  constructor
  · intro f j
    simp only [passes_filters]
    cases h : passes_location_filter f j.location with
    | none => simp [h]
    | some lok =>
      cases lok with
      | false => simp [h]
      | true =>
        cases hsk : passes_skills_filter f j.skills <;>
          cases hsen : passes_seniority_filter f j.seniority <;>
          cases hti : passes_job_title_filter j.title <;>
          cases hex : passes_experience_filter j.description j.seniority <;>
          simp [h, hsk, hsen, hti, hex]
  · intro f l hno
    induction l with
    | nil => rfl
    | cons j rest ih =>
      have hj := hno j (by simp)
      have hrest : ∀ x ∈ rest, passes_filters f x ≠ none := fun x hx => hno x (by simp [hx])
      cases hp : passes_filters f j with
      | none => exact absurd hp hj
      | some b =>
        simp only [filter_jobs, hp, ih hrest]
        cases b <;> simp [List.filter_cons, hp]

/-- C5 counterexample: with a location restriction configured, a job whose
`location` is `None` makes the location stage raise, so `filter_jobs` does
not return the list of jobs passing all stages. -/
theorem C5_counterexample : filter_jobs cexF5 [cexJob5] = none := by decide

/-- C5 witness. -/
theorem C5_witness :
    filter_jobs wF5 [wJobA] =
      some ([wJobA].filter (fun j => passes_filters wF5 j == some true)) :=
  C5_filter_conjunction.2 wF5 [wJobA] (by decide)

/-! ### Storage lemmas -/

theorem idsFrom_length : ∀ (l : List Job) (n : Nat), (idsFrom n l).length = l.length := by
  intro l
  induction l with
  | nil => intro n; rfl
  | cons j rest ih => intro n; simp [idsFrom, ih]

theorem cleanDocsFrom_length : ∀ (l : List Job) (n : Nat),
    (cleanDocsFrom n l).length = l.length := by
  intro l
  induction l with
  | nil => intro n; rfl
  | cons j rest ih => intro n; simp [cleanDocsFrom, ih]

theorem store_clean_jobs_spec : ∀ (jobs : List Job) (st : DBState),
    store_clean_jobs jobs st =
      (idsFrom st.nextOid jobs,
       { st with jobs_clean := st.jobs_clean ++ cleanDocsFrom st.nextOid jobs
                 nextOid := st.nextOid + jobs.length }) := by
  intro jobs
  induction jobs with
  | nil =>
    intro st
    simp [store_clean_jobs, idsFrom, cleanDocsFrom]
  | cons j rest ih =>
    intro st
    simp only [store_clean_jobs, ih]
    simp [idsFrom, cleanDocsFrom, DBState.mk.injEq, List.append_assoc]
    omega

theorem foldRaw_fields (src : String) (now : PyDatetime) :
    ∀ (js : List RawJob) (st : DBState),
      (js.foldl (storeRawOne src now) st).jobs_clean = st.jobs_clean ∧
      (js.foldl (storeRawOne src now) st).posts_ready = st.posts_ready ∧
      (js.foldl (storeRawOne src now) st).nextOid = st.nextOid + js.length := by
  intro js
  induction js with
  | nil => intro st; exact ⟨rfl, rfl, by simp⟩
  | cons rj rest ih =>
    intro st
    simp only [List.foldl]
    obtain ⟨h1, h2, h3⟩ := ih (storeRawOne src now st rj)
    refine ⟨by rw [h1]; rfl, by rw [h2]; rfl, ?_⟩
    rw [h3]
    have hone : (storeRawOne src now st rj).nextOid = st.nextOid + 1 := rfl
    rw [hone]
    simp
    omega

theorem store_raw_jobs_fields : ∀ (raw : List (String × List RawJob)) (now : PyDatetime)
    (st : DBState),
    (store_raw_jobs raw now st).jobs_clean = st.jobs_clean ∧
    (store_raw_jobs raw now st).nextOid = st.nextOid + rawCount raw := by
  intro raw
  induction raw with
  | nil => intro now st; exact ⟨rfl, by simp [rawCount, store_raw_jobs]⟩
  | cons sj rest ih =>
    intro now st
    obtain ⟨h1, h2⟩ := ih now (sj.2.foldl (storeRawOne sj.1 now) st)
    obtain ⟨g1, -, g3⟩ := foldRaw_fields sj.1 now sj.2 st
    constructor
    · show (store_raw_jobs rest now (sj.2.foldl (storeRawOne sj.1 now) st)).jobs_clean = _
      rw [h1, g1]
    · show (store_raw_jobs rest now (sj.2.foldl (storeRawOne sj.1 now) st)).nextOid = _
      rw [h2, g3]
      simp [rawCount]
      omega

theorem get_existing_store_raw (raw : List (String × List RawJob)) (now : PyDatetime)
    (st : DBState) :
    get_existing_jobs (store_raw_jobs raw now st) = get_existing_jobs st := by
  unfold get_existing_jobs
  rw [(store_raw_jobs_fields raw now st).1]

/-! ### Claim C1 -/

/-- C1 (amended): `store_clean_jobs` is plain insertion, not an idempotent
upsert — it appends one fresh document per stored job regardless of what the
collection already contains, so storing an already-present job grows the
collection and re-running the pipeline re-inserts previously stored jobs
(see the counterexample for both). -/
theorem C1_store_appends : ∀ (jobs : List Job) (st : DBState),
    (store_clean_jobs jobs st).2.jobs_clean = st.jobs_clean ++ cleanDocsFrom st.nextOid jobs ∧
    (store_clean_jobs jobs st).2.jobs_clean.length = st.jobs_clean.length + jobs.length := by
  intro jobs st
  rw [store_clean_jobs_spec]
  exact ⟨rfl, by simp [cleanDocsFrom_length]⟩

/-- C1 counterexample: storing a job already present in `jobs_clean` changes
the collection, and running `process_job_pipeline` twice on the same raw
input stores the surviving job again (1 document after the first run, 2
after the second). -/
theorem C1_counterexample :
    (store_clean_jobs [wJobA] c1St).2.jobs_clean ≠ c1St.jobs_clean ∧
    (process_job_pipeline {} wBaseDt cexRaw {}).map (fun r => r.2.jobs_clean.length) =
      some 1 ∧
    ((process_job_pipeline {} wBaseDt cexRaw {}).bind fun r =>
      (process_job_pipeline {} wBaseDt cexRaw r.2).map fun r2 => r2.2.jobs_clean.length) =
      some 2 := by
  refine ⟨by decide, by decide, by decide⟩

/-! ### Claim C6 -/

/-- C6: a successful `process_job_pipeline` run normalizes the raw jobs,
deduplicates the existing stored jobs concatenated with the newly normalized
ones, filters the deduplicated list, and only then stores: the returned ids
are exactly the fresh ids of the filtered jobs and the clean collection is
extended by exactly their documents, in order. -/
theorem C6_pipeline_stages :
    ∀ (flt : Filters) (now : PyDatetime) (raw : List (String × List RawJob)) (st : DBState)
      (ids : List String) (st' : DBState),
      process_job_pipeline flt now raw st = some (ids, st') →
      ∃ unique filtered,
        deduplicate_jobs (get_existing_jobs st ++ process_raw_jobs raw now) = some unique ∧
        filter_jobs flt unique = some filtered ∧
        ids = idsFrom (st.nextOid + rawCount raw) filtered ∧
        ids.length = filtered.length ∧
        st'.jobs_clean = st.jobs_clean ++ cleanDocsFrom (st.nextOid + rawCount raw) filtered := by
  intro flt now raw st ids st' h
  simp only [process_job_pipeline] at h
  rw [get_existing_store_raw] at h
  cases hd : deduplicate_jobs (get_existing_jobs st ++ process_raw_jobs raw now) with
  | none =>
    simp only [hd] at h
    exact Option.noConfusion h
  | some unique =>
    simp only [hd] at h
    cases hf : filter_jobs flt unique with
    | none =>
      simp only [hf] at h
      exact Option.noConfusion h
    | some filtered =>
      simp only [hf] at h
      have h2 : store_clean_jobs filtered (store_raw_jobs raw now st) = (ids, st') :=
        Option.some.inj h
      rw [store_clean_jobs_spec] at h2
      have hno : (store_raw_jobs raw now st).nextOid = st.nextOid + rawCount raw :=
        (store_raw_jobs_fields raw now st).2
      have hjc : (store_raw_jobs raw now st).jobs_clean = st.jobs_clean :=
        (store_raw_jobs_fields raw now st).1
      have hids : ids = idsFrom (st.nextOid + rawCount raw) filtered := by
        have hfst := congrArg Prod.fst h2
        simp only at hfst
        rw [← hfst, hno]
      have hsnd := congrArg Prod.snd h2
      simp only at hsnd
      refine ⟨unique, filtered, rfl, hf, hids, by rw [hids, idsFrom_length], ?_⟩
      rw [← hsnd]
      show (store_raw_jobs raw now st).jobs_clean ++ _ = _
      rw [hjc, hno]

/-- C6 witness. -/
theorem C6_witness :
    ∃ unique filtered,
      deduplicate_jobs (get_existing_jobs {} ++ process_raw_jobs cexRaw wBaseDt) =
        some unique ∧
      filter_jobs {} unique = some filtered ∧
      wC6run.1 = idsFrom (({} : DBState).nextOid + rawCount cexRaw) filtered ∧
      wC6run.1.length = filtered.length ∧
      wC6run.2.jobs_clean =
        ({} : DBState).jobs_clean ++
          cleanDocsFrom (({} : DBState).nextOid + rawCount cexRaw) filtered :=
  C6_pipeline_stages {} wBaseDt cexRaw {} wC6run.1 wC6run.2 (by decide)

/-! ### Caption/posting lemmas -/

theorem genPlatformStep_mem (captions : List (String × String))
    (capCfgs : List (String × CaptionCfg)) (job_id : String) (now : PyDatetime)
    (st : DBState) (platform : String) :
    ∀ d' ∈ (genPlatformStep captions capCfgs job_id now st platform).posts_ready,
      d' ∈ st.posts_ready ∨ d'.status = "pending" := by
  intro d' hd'
  unfold genPlatformStep at hd'
  cases h : lookupStr captions platform with
  | none => simp only [h] at hd'; exact Or.inl hd'
  | some caption =>
    simp only [h] at hd'
    by_cases hv : validate_caption capCfgs caption platform = true
    · rw [if_pos hv] at hd'
      rcases List.mem_append.mp hd' with h1 | h2
      · exact Or.inl h1
      · rw [List.mem_singleton.mp h2]
        exact Or.inr rfl
    · rw [if_neg hv] at hd'
      exact Or.inl hd'

theorem genFold_mem (captions : List (String × String)) (capCfgs : List (String × CaptionCfg))
    (job_id : String) (now : PyDatetime) :
    ∀ (platforms : List String) (st : DBState),
      ∀ d' ∈ (platforms.foldl (genPlatformStep captions capCfgs job_id now) st).posts_ready,
        d' ∈ st.posts_ready ∨ d'.status = "pending" := by
  intro platforms
  induction platforms with
  | nil => intro st d' hd'; exact Or.inl hd'
  | cons p ps ih =>
    intro st d' hd'
    rcases ih (genPlatformStep captions capCfgs job_id now st p) d' hd' with h1 | h2
    · exact genPlatformStep_mem captions capCfgs job_id now st p d' h1
    · exact Or.inr h2

theorem generateCaptionsForJob_mem (cfg : PostingConfig)
    (capGen : CleanDoc → List (String × String)) (now : PyDatetime) (st : DBState)
    (job_id : String) :
    ∀ d' ∈ (generateCaptionsForJob cfg capGen now st job_id).posts_ready,
      d' ∈ st.posts_ready ∨ d'.status = "pending" := by
  intro d' hd'
  unfold generateCaptionsForJob at hd'
  cases h : st.jobs_clean.find? (fun d => toString d.oid == job_id) with
  | none => simp only [h] at hd'; exact Or.inl hd'
  | some job =>
    simp only [h] at hd'
    exact genFold_mem (capGen job) cfg.captions job_id now cfg.platforms st d' hd'

theorem generate_captions_mem (cfg : PostingConfig)
    (capGen : CleanDoc → List (String × String)) (now : PyDatetime) :
    ∀ (job_ids : List String) (st : DBState),
      ∀ d' ∈ (generate_captions_for_jobs cfg capGen now job_ids st).posts_ready,
        d' ∈ st.posts_ready ∨ d'.status = "pending" := by
  intro job_ids
  induction job_ids with
  | nil => intro st d' hd'; exact Or.inl hd'
  | cons i ids ih =>
    intro st d' hd'
    rcases ih (generateCaptionsForJob cfg capGen now st i) d' hd' with h1 | h2
    · exact generateCaptionsForJob_mem cfg capGen now st i d' h1
    · exact Or.inr h2

theorem setPostStatus_mem : ∀ (posts : List PostDoc) (oid : Nat) (s : String),
    ∀ d' ∈ setPostStatus posts oid s, d' ∈ posts ∨ d'.status = s := by
  intro posts
  induction posts with
  | nil => intro oid s d' hd'; exact absurd hd' (List.not_mem_nil d')
  | cons d rest ih =>
    intro oid s d' hd'
    by_cases h : d.oid = oid
    · simp only [setPostStatus, if_pos h] at hd'
      rcases List.mem_cons.mp hd' with rfl | h2
      · exact Or.inr rfl
      · exact Or.inl (by simp [h2])
    · simp only [setPostStatus, if_neg h] at hd'
      rcases List.mem_cons.mp hd' with rfl | h2
      · exact Or.inl (by simp)
      · rcases ih oid s d' h2 with h3 | h3
        · exact Or.inl (by simp [h3])
        · exact Or.inr h3

theorem processPendingPost_mem (posters : List String)
    (oracle : String → String → CleanDoc → Bool × Option String) (now : PyDatetime)
    (st : DBState) (p : PostDoc) :
    ∀ d' ∈ (processPendingPost posters oracle now st p).posts_ready,
      d' ∈ st.posts_ready ∨ d'.status = "posted" ∨ d'.status = "failed" := by
  intro d' hd'
  unfold processPendingPost at hd'
  cases hfind : st.jobs_clean.find? (fun d => toString d.oid == p.job_id) with
  | none => simp only [hfind] at hd'; exact Or.inl hd'
  | some job =>
    simp only [hfind] at hd'
    by_cases hr : (resultFor (post_to_all_platforms posters oracle
        [(p.platform, p.caption)] job) p.platform).1 = true
    · rw [if_pos hr] at hd'
      rcases setPostStatus_mem st.posts_ready p.oid "posted" d' hd' with h | h
      · exact Or.inl h
      · exact Or.inr (Or.inl h)
    · rw [if_neg hr] at hd'
      rcases setPostStatus_mem st.posts_ready p.oid "failed" d' hd' with h | h
      · exact Or.inl h
      · exact Or.inr (Or.inr h)

theorem postsFold_mem (posters : List String)
    (oracle : String → String → CleanDoc → Bool × Option String) (now : PyDatetime) :
    ∀ (ps : List PostDoc) (st : DBState),
      ∀ d' ∈ (ps.foldl (processPendingPost posters oracle now) st).posts_ready,
        d' ∈ st.posts_ready ∨ d'.status = "posted" ∨ d'.status = "failed" := by
  intro ps
  induction ps with
  | nil => intro st d' hd'; exact Or.inl hd'
  | cons p ps' ih =>
    intro st d' hd'
    rcases ih (processPendingPost posters oracle now st p) d' hd' with h | h
    · exact processPendingPost_mem posters oracle now st p d' h
    · exact Or.inr h

theorem post_pending_mem (cfg : PostingConfig) (posters : List String)
    (oracle : String → String → CleanDoc → Bool × Option String) (now : PyDatetime)
    (pf : Option String) (st : DBState) :
    ∀ d' ∈ (post_pending_content cfg posters oracle now pf st).posts_ready,
      d' ∈ st.posts_ready ∨ d'.status = "posted" ∨ d'.status = "failed" := by
  intro d' hd'
  unfold post_pending_content at hd'
  by_cases h0 : (pendingSelection st pf).isEmpty = true
  · rw [if_pos h0] at hd'; exact Or.inl hd'
  · rw [if_neg h0] at hd'
    by_cases h1 : postingLimit cfg pf ≤ getTodayPostCount st now pf
    · rw [if_pos h1] at hd'; exact Or.inl hd'
    · rw [if_neg h1] at hd'
      exact postsFold_mem posters oracle now _ st d' hd'

theorem pendingSelection_mem (st : DBState) (pf : Option String) :
    ∀ p ∈ pendingSelection st pf, p ∈ st.posts_ready ∧ p.status = "pending" := by
  intro p hp
  have hm := List.mem_filter.mp hp
  refine ⟨hm.1, ?_⟩
  have hcond := hm.2
  simp only [Bool.and_eq_true, beq_iff_eq] at hcond
  exact hcond.1

theorem nodup_oid_mem_eq : ∀ (l : List PostDoc),
    (l.map PostDoc.oid).Nodup → ∀ (a b : PostDoc), a ∈ l → b ∈ l → a.oid = b.oid → a = b := by
  intro l
  induction l with
  | nil => intro _ a b ha; exact absurd ha (List.not_mem_nil a)
  | cons x xs ih =>
    intro h a b ha hb hoid
    simp only [List.map_cons, List.nodup_cons] at h
    obtain ⟨hx, hxs⟩ := h
    rcases List.mem_cons.mp ha with rfl | ha' <;> rcases List.mem_cons.mp hb with rfl | hb'
    · rfl
    · exact absurd (hoid ▸ List.mem_map_of_mem PostDoc.oid hb') hx
    · exact absurd (hoid ▸ List.mem_map_of_mem PostDoc.oid ha') (by simpa using hx)
    · exact ih hxs a b ha' hb' hoid

theorem setPostStatus_rel (posters : List String)
    (oracle : String → String → CleanDoc → Bool × Option String) (st0 : DBState)
    (hnodup : (st0.posts_ready.map PostDoc.oid).Nodup)
    (p : PostDoc) (hp : p ∈ st0.posts_ready) (hpend : p.status = "pending")
    (s : String)
    (hs : s = if publishSucceeds posters oracle st0 p then "posted" else "failed") :
    ∀ {cur orig : List PostDoc},
      List.Forall₂ (postRel posters oracle st0) cur orig →
      (∀ x ∈ orig, x ∈ st0.posts_ready) →
      List.Forall₂ (postRel posters oracle st0) (setPostStatus cur p.oid s) orig := by
  intro cur orig hrel
  induction hrel with
  | nil => intro _; exact List.Forall₂.nil
  | @cons d' d cur' orig' hR hrest ih =>
    intro hmem
    by_cases hoid : d'.oid = p.oid
    · simp only [setPostStatus, if_pos hoid]
      refine List.Forall₂.cons ?_ hrest
      have hdoid : d'.oid = d.oid := by
        rcases hR with rfl | ⟨-, rfl⟩
        · rfl
        · rfl
      have hdp : d = p :=
        nodup_oid_mem_eq st0.posts_ready hnodup d p (hmem d (by simp)) hp
          (by rw [← hdoid, hoid])
      subst hdp
      subst hs
      rcases hR with rfl | ⟨-, rfl⟩
      · exact Or.inr ⟨hpend, rfl⟩
      · exact Or.inr ⟨hpend, rfl⟩
    · simp only [setPostStatus, if_neg hoid]
      exact List.Forall₂.cons hR (ih (fun x hx => hmem x (by simp [hx])))

theorem processPendingPost_rel (posters : List String)
    (oracle : String → String → CleanDoc → Bool × Option String) (now : PyDatetime)
    (st0 : DBState) (hnodup : (st0.posts_ready.map PostDoc.oid).Nodup)
    (p : PostDoc) (hp : p ∈ st0.posts_ready) (hpend : p.status = "pending") :
    ∀ (st : DBState), st.jobs_clean = st0.jobs_clean →
      List.Forall₂ (postRel posters oracle st0) st.posts_ready st0.posts_ready →
      ((processPendingPost posters oracle now st p).jobs_clean = st0.jobs_clean ∧
       List.Forall₂ (postRel posters oracle st0)
         (processPendingPost posters oracle now st p).posts_ready st0.posts_ready) := by
  intro st hjc hrel
  unfold processPendingPost
  cases hfind : st.jobs_clean.find? (fun d => toString d.oid == p.job_id) with
  | none => simp only [hfind]; exact ⟨hjc, hrel⟩
  | some job =>
    simp only [hfind]
    by_cases hr : (resultFor (post_to_all_platforms posters oracle
        [(p.platform, p.caption)] job) p.platform).1 = true
    · have hps : publishSucceeds posters oracle st0 p = true := by
        unfold publishSucceeds
        rw [← hjc, hfind]
        exact hr
      rw [if_pos hr]
      refine ⟨hjc, ?_⟩
      exact setPostStatus_rel posters oracle st0 hnodup p hp hpend "posted"
        (by rw [hps]; rfl) hrel (fun x hx => hx)
    · have hps : publishSucceeds posters oracle st0 p = false := by
        unfold publishSucceeds
        rw [← hjc, hfind]
        exact Bool.not_eq_true _ ▸ hr
      rw [if_neg hr]
      refine ⟨hjc, ?_⟩
      exact setPostStatus_rel posters oracle st0 hnodup p hp hpend "failed"
        (by rw [hps]; rfl) hrel (fun x hx => hx)

theorem postsFold_rel (posters : List String)
    (oracle : String → String → CleanDoc → Bool × Option String) (now : PyDatetime)
    (st0 : DBState) (hnodup : (st0.posts_ready.map PostDoc.oid).Nodup) :
    ∀ (ps : List PostDoc), (∀ p ∈ ps, p ∈ st0.posts_ready ∧ p.status = "pending") →
      ∀ (st : DBState), st.jobs_clean = st0.jobs_clean →
        List.Forall₂ (postRel posters oracle st0) st.posts_ready st0.posts_ready →
        ((ps.foldl (processPendingPost posters oracle now) st).jobs_clean = st0.jobs_clean ∧
         List.Forall₂ (postRel posters oracle st0)
           (ps.foldl (processPendingPost posters oracle now) st).posts_ready
           st0.posts_ready) := by
  intro ps
  induction ps with
  | nil => intro _ st h1 h2; exact ⟨h1, h2⟩
  | cons p ps' ih =>
    intro hmem st h1 h2
    obtain ⟨hp, hpend⟩ := hmem p (by simp)
    obtain ⟨g1, g2⟩ := processPendingPost_rel posters oracle now st0 hnodup p hp hpend st h1 h2
    exact ih (fun q hq => hmem q (by simp [hq])) _ g1 g2

theorem post_pending_rel (cfg : PostingConfig) (posters : List String)
    (oracle : String → String → CleanDoc → Bool × Option String) (now : PyDatetime)
    (pf : Option String) (st : DBState)
    (hnodup : (st.posts_ready.map PostDoc.oid).Nodup) :
    List.Forall₂ (postRel posters oracle st)
      (post_pending_content cfg posters oracle now pf st).posts_ready st.posts_ready := by
  have hrefl : List.Forall₂ (postRel posters oracle st) st.posts_ready st.posts_ready :=
    List.forall₂_same.mpr (fun x _ => Or.inl rfl)
  unfold post_pending_content
  by_cases h0 : (pendingSelection st pf).isEmpty = true
  · rw [if_pos h0]; exact hrefl
  · rw [if_neg h0]
    by_cases h1 : postingLimit cfg pf ≤ getTodayPostCount st now pf
    · rw [if_pos h1]; exact hrefl
    · rw [if_neg h1]
      exact (postsFold_rel posters oracle now st hnodup _
        (fun p hp => pendingSelection_mem st pf p (List.take_subset _ _ hp))
        st rfl hrefl).2

/-! ### Claim C7 -/

/-- C7: (i) every document `_generate_captions_for_jobs` adds to
`posts_ready` carries status `pending`; (ii) `post_pending_content` changes
a stored record only if it was `pending`, flipping it to `posted` exactly
when its publication attempt succeeds and to `failed` otherwise (all other
fields kept); (iii) both operations preserve the invariant that every
stored status is one of `pending`, `posted`, `failed`. -/
theorem C7_post_status_lifecycle :
    (∀ (cfg : PostingConfig) (capGen : CleanDoc → List (String × String)) (now : PyDatetime)
       (job_ids : List String) (st : DBState),
      ∀ d' ∈ (generate_captions_for_jobs cfg capGen now job_ids st).posts_ready,
        d' ∈ st.posts_ready ∨ d'.status = "pending") ∧
    (∀ (cfg : PostingConfig) (posters : List String)
       (oracle : String → String → CleanDoc → Bool × Option String)
       (now : PyDatetime) (pf : Option String) (st : DBState),
      (st.posts_ready.map PostDoc.oid).Nodup →
      List.Forall₂ (postRel posters oracle st)
        (post_pending_content cfg posters oracle now pf st).posts_ready st.posts_ready) ∧
    (∀ (cfg : PostingConfig) (capGen : CleanDoc → List (String × String))
       (posters : List String) (oracle : String → String → CleanDoc → Bool × Option String)
       (now : PyDatetime) (job_ids : List String) (pf : Option String) (st : DBState),
      (∀ d ∈ st.posts_ready, statusOk d) →
      (∀ d' ∈ (generate_captions_for_jobs cfg capGen now job_ids st).posts_ready, statusOk d') ∧
      (∀ d' ∈ (post_pending_content cfg posters oracle now pf st).posts_ready, statusOk d')) := by
  refine ⟨?_, ?_, ?_⟩
  · intro cfg capGen now job_ids st
    exact generate_captions_mem cfg capGen now job_ids st
  · intro cfg posters oracle now pf st hnodup
    exact post_pending_rel cfg posters oracle now pf st hnodup
  · intro cfg capGen posters oracle now job_ids pf st hinv
    constructor
    · intro d' hd'
      rcases generate_captions_mem cfg capGen now job_ids st d' hd' with h | h
      · exact hinv d' h
      · exact Or.inl h
    · intro d' hd'
      rcases post_pending_mem cfg posters oracle now pf st d' hd' with h | h | h
      · exact hinv d' h
      · exact Or.inr (Or.inl h)
      · exact Or.inr (Or.inr h)

/-- C7 witness. -/
theorem C7_witness :
    List.Forall₂ (postRel ["linkedin"] w7Oracle w7St)
      (post_pending_content w7Cfg ["linkedin"] w7Oracle wBaseDt none w7St).posts_ready
      w7St.posts_ready :=
  C7_post_status_lifecycle.2.1 w7Cfg ["linkedin"] w7Oracle wBaseDt none w7St (by decide)

end JobHunt
